import Mathlib

/-!
Shallow embedding of the asynchronous job-recommendation pipeline of this
repository (backend/apify_jobs_service.py, backend/ai_recommendation_service.py,
backend/apify_recommendation_queue.py, apify/app/utils/apify_client.py),
together with theorems settling the frozen claims about it.

Python strings are modelled as Lean `String` (lists of characters); Python
floats are modelled as exact rationals `ℚ` (scores) or integers (timestamps);
Python dict/list/str/None values
flowing through the scrapers are modelled by the inductive `UVal`.
-/

namespace PyStr

/-- One step of Python `re.sub(r"\s+", " ", s)`: collapse every maximal run of
whitespace characters into a single space.  `inRun` records whether the
previous character was part of a whitespace run. -/
def collapseWSAux (inRun : Bool) : List Char → List Char
  | [] => []
  | c :: rest =>
    if c.isWhitespace then
      if inRun then collapseWSAux true rest
      else ' ' :: collapseWSAux true rest
    else c :: collapseWSAux false rest

/-- Python `re.sub(r"\s+", " ", s)`. -/
def collapseWS (l : List Char) : List Char := collapseWSAux false l

/-- Python `str.strip()` restricted to a given set of characters:
drop them from both ends (`str.strip(chars)`for an explicit char set). -/
def stripCharsOf (chars : List Char) (l : List Char) : List Char :=
  ((l.dropWhile (· ∈ chars)).reverse.dropWhile (· ∈ chars)).reverse

/-- Python `str.strip()` (whitespace from both ends). -/
def stripWS (l : List Char) : List Char :=
  ((l.dropWhile Char.isWhitespace).reverse.dropWhile Char.isWhitespace).reverse

/-- Python `str.lower()` (ASCII-adequate model). -/
def lowerChars (l : List Char) : List Char := l.map Char.toLower

/-- Fuel-driven core of Python `str.replace(p, r)`: scan left to right, replace
each non-overlapping occurrence of `p`, and continue scanning after the
replacement.  The fuel is always instantiated with the length of the scanned
list, which suffices because every step consumes at least one character. -/
def replaceFuel (p r : List Char) : Nat → List Char → List Char
  | _, [] => []
  | 0, s => s
  | fuel + 1, c :: rest =>
    if p.isPrefixOf (c :: rest) && !p.isEmpty then
      r ++ replaceFuel p r fuel (List.drop (p.length - 1) rest)
    else
      c :: replaceFuel p r fuel rest

/-- Python `s.replace(p, r)` (for non-empty patterns `p`, which is the only way
the source uses it). -/
def replaceCh (p r s : List Char) : List Char := replaceFuel p r s.length s

/-- Python `s.replace(p, r)` on `String`. -/
def pyReplace (s p r : String) : String := String.mk (replaceCh p.toList r.toList s.toList)

/-- Python `s.strip()` on `String`. -/
def pyStrip (s : String) : String := String.mk (stripWS s.toList)

/-- Python `s.lower()` on `String`. -/
def pyLower (s : String) : String := String.mk (lowerChars s.toList)

/-- Python `p in s` (substring containment). -/
def pyContains (s p : String) : Bool := decide (p.toList <:+: s.toList)

/-- Python `s.startswith(p)`. -/
def pyStartsWith (s p : String) : Bool := p.toList.isPrefixOf s.toList

/-- Number of non-empty tokens of `re.split(r"[\s,]+", s)`. -/
def countTokens (s : String) : Nat :=
  ((s.toList.splitOnP (fun c => c.isWhitespace || c = ',')).filter (· ≠ [])).length

end PyStr

/-!
Model of the Python values flowing through the scraper layers:
`None`, strings, lists, and string-keyed dicts (in insertion order, keys
unique).  `UList`/`UDict` are the list/dict spines, mutual with `UVal` so
that all recursion over them is structural (and kernel-computable).
-/
mutual
inductive UVal where
  | none : UVal
  | str (s : String) : UVal
  | list (l : UList) : UVal
  | dict (d : UDict) : UVal
deriving Repr, Inhabited, DecidableEq

inductive UList where
  | nil : UList
  | cons (v : UVal) (rest : UList) : UList
deriving Repr, Inhabited, DecidableEq

inductive UDict where
  | nil : UDict
  | cons (k : String) (v : UVal) (rest : UDict) : UDict
deriving Repr, Inhabited, DecidableEq
end

/-- Build a `UList` from a Lean list (for writing concrete values). -/
def UList.ofList : List UVal → UList
  | [] => .nil
  | v :: rest => .cons v (UList.ofList rest)

/-- The Lean list underlying a `UList`. -/
def UList.toList : UList → List UVal
  | .nil => []
  | .cons v rest => v :: UList.toList rest

/-- Build a `UDict` from a Lean association list. -/
def UDict.ofList : List (String × UVal) → UDict
  | [] => .nil
  | (k, v) :: rest => .cons k v (UDict.ofList rest)

/-- Python `key in d` / `d.get(key)` on a dict: the (unique) binding, if any. -/
def UDict.get? : UDict → String → Option UVal
  | .nil, _ => Option.none
  | .cons k2 v rest, k => if k2 = k then some v else UDict.get? rest k

/-- The association list underlying a `UDict`. -/
def UDict.entries : UDict → List (String × UVal)
  | .nil => []
  | .cons k v rest => (k, v) :: UDict.entries rest

namespace UVal

/-- Python `d.get(key)` (absent key gives `None`). -/
def pyGet (d : UDict) (k : String) : UVal := (d.get? k).getD .none

/-- Python truthiness of a value. -/
def truthy : UVal → Bool
  | .none => false
  | .str s => s != ""
  | .list .nil => false
  | .list (.cons _ _) => true
  | .dict .nil => false
  | .dict (.cons _ _ _) => true

/-- Python `a or b`. -/
def pyOr (a b : UVal) : UVal := if a.truthy then a else b

/-- Python `a or b or c or ...` over raw values (first truthy value, else the
last). -/
def pyOrList : List UVal → UVal
  | [] => .none
  | [v] => v
  | v :: rest => pyOr v (pyOrList rest)

mutual
/-- Size of a value, bounding the recursion depth of `str()` and of URL
normalization. -/
def usize : UVal → Nat
  | .none => 1
  | .str _ => 1
  | .list l => 1 + usizeL l
  | .dict d => 1 + usizeD d

def usizeL : UList → Nat
  | .nil => 0
  | .cons v rest => usize v + usizeL rest

def usizeD : UDict → Nat
  | .nil => 0
  | .cons _ v rest => usize v + usizeD rest
end

/-- Fuel-driven rendering of Python `str(v)`; the repr of nested
lists/dicts is only a stand-in (no theorem depends on it). -/
def pyStrFuel : Nat → UVal → String
  | 0, _ => ""
  | _ + 1, .none => "None"
  | _ + 1, .str s => s
  | f + 1, .list l => "[" ++ String.intercalate ", " (l.toList.map (pyStrFuel f)) ++ "]"
  | f + 1, .dict d =>
      "\x7b" ++
        String.intercalate ", " (d.entries.map (fun kv => kv.1 ++ ": " ++ pyStrFuel f kv.2)) ++
      "\x7d"

/-- Python `str(v)`. -/
def pyStr (v : UVal) : String := pyStrFuel (usize v) v

end UVal

namespace ApifyJobsService

open PyStr UVal

/-- The string part of `_normalize_external_url` in
backend/apify_jobs_service.py: strip, repair malformed ampersand encodings,
then accept absolute/scheme-relative/bare-`www.` forms. -/
def normalize_url_text (s : String) : String :=
  let text := pyStrip s
  let text := pyReplace text "?amp;" "?"
  let text := pyReplace text "&amp;" "&"
  let text := pyReplace text "amp;" ""
  if text = "" then ""
  else if pyStartsWith text "http://" || pyStartsWith text "https://" then text
  else if pyStartsWith text "//" then "https:" ++ text
  else if pyStartsWith text "www." then "https://" ++ text
  else ""

/-- The candidate keys scanned in the dict case of `_normalize_external_url`. -/
def urlDictKeys : List String :=
  ["url", "link", "href", "applyUrl", "jobUrl", "application_url"]

/-- First non-empty string in a list, else `""` (the `for ...: if normalized:
return normalized` pattern). -/
def firstNonEmptyStr : List String → String
  | [] => ""
  | s :: rest => if s = "" then firstNonEmptyStr rest else s

/-- Fuel-driven recursion of `_normalize_external_url`
(backend/apify_jobs_service.py): dicts are probed at the fixed candidate keys,
lists element-wise, strings via `normalize_url_text`.  The fuel is always
instantiated with `usize v`, which bounds the recursion depth. -/
def normUFuel : Nat → UVal → String
  | 0, _ => ""
  | _ + 1, .none => ""
  | _ + 1, .str s => normalize_url_text s
  | f + 1, .list l => firstNonEmptyStr (l.toList.map (normUFuel f))
  | f + 1, .dict d =>
      firstNonEmptyStr (urlDictKeys.filterMap (fun k => (d.get? k).map (normUFuel f)))

/-- `_normalize_external_url` of backend/apify_jobs_service.py. -/
def normalize_external_url (v : UVal) : String := normUFuel (usize v) v

/-- `_sanitize_location` of backend/apify_jobs_service.py. -/
def sanitize_location (location : String) (default : String) : String :=
  let cleaned := String.mk (stripCharsOf [' ', ',', ';'] (collapseWS location.toList))
  if cleaned = "" then default
  else if 80 < cleaned.toList.length then default
  else
    let lowered := pyLower cleaned
    if ["cgpa", "batch", "board", "university", "hsc", "ssc", "implemented",
        "laravel"].any (fun term => pyContains lowered term) then default
    else if pyContains lowered "http://" || pyContains lowered "https://" then default
    else if 8 < countTokens cleaned then default
    else cleaned

/-- Token normalization inside `_normalize_keywords_for_cache`:
`re.sub(r"\s+", " ", str(keyword or "")).strip().lower()`. -/
def normalizeCacheToken (s : String) : String :=
  String.mk (lowerChars (stripWS (collapseWS s.toList)))

/-- The dedup loop of `_normalize_keywords_for_cache`, with its `seen` set. -/
def normalizeKeywordsGo (seen : List String) : List String → List String
  | [] => []
  | k :: rest =>
    let token := normalizeCacheToken k
    if token = "" || token ∈ seen then normalizeKeywordsGo seen rest
    else token :: normalizeKeywordsGo (token :: seen) rest

/-- `_normalize_keywords_for_cache` of backend/apify_jobs_service.py. -/
def normalize_keywords_for_cache (keywords : List String) : List String :=
  normalizeKeywordsGo [] keywords

/-- JSON string rendering used by the cache key (modulo JSON character
escaping, which no keyword or location in scope needs). -/
def jsonStr (s : String) : String := "\"" ++ s ++ "\""

/-- `json.dumps({"location": ..., "keywords": [...]}, sort_keys=True,
separators=(",", ":"))`: keys are emitted sorted (`keywords` before
`location`). -/
def serializeCachePayload (location : String) (keywords : List String) : String :=
  "\x7b\"keywords\":[" ++ String.intercalate "," (keywords.map jsonStr) ++
    "],\"location\":" ++ jsonStr location ++ "\x7d"

/-- `_build_cache_key` of backend/apify_jobs_service.py. -/
def build_cache_key (keywords : List String) (location : String) : String :=
  let safe_location := pyLower (sanitize_location location "India")
  let normalized_keywords := normalize_keywords_for_cache keywords
  serializeCachePayload safe_location (normalized_keywords.take 16)

end ApifyJobsService

namespace ApifyJobsService

open PyStr UVal

/-- Uppercase hex digit. -/
def hexDigit (n : Nat) : Char := if n < 10 then Char.ofNat (48 + n) else Char.ofNat (55 + n)

/-- UTF-8 encoding of one character, as byte values. -/
def utf8Bytes (c : Char) : List Nat :=
  let n := c.toNat
  if n < 0x80 then [n]
  else if n < 0x800 then [0xC0 + n / 0x40, 0x80 + n % 0x40]
  else if n < 0x10000 then [0xE0 + n / 0x1000, 0x80 + (n / 0x40) % 0x40, 0x80 + n % 0x40]
  else [0xF0 + n / 0x40000, 0x80 + (n / 0x1000) % 0x40, 0x80 + (n / 0x40) % 0x40, 0x80 + n % 0x40]

/-- `urllib.parse.quote_plus` on one character: space becomes `+`, unreserved
characters pass through, everything else is percent-encoded bytewise. -/
def quotePlusChar (c : Char) : List Char :=
  if c = ' ' then ['+']
  else if c.isAlphanum && c.toNat < 128 then [c]
  else if c ∈ ['_', '.', '-', '~'] then [c]
  else (utf8Bytes c).flatMap (fun b => ['%', hexDigit (b / 16), hexDigit (b % 16)])

/-- `urllib.parse.quote_plus`. -/
def quote_plus (s : String) : String := String.mk (s.toList.flatMap quotePlusChar)

/-- Characters kept by the slug regex `[^a-z0-9]+` complement. -/
def isSlugChar (c : Char) : Bool := ('a' ≤ c && c ≤ 'z') || ('0' ≤ c && c ≤ '9')

/-- `re.sub(r"[^a-z0-9]+", "-", s)`: collapse each maximal run of non-slug
characters into a single `-`. -/
def slugCollapseAux (inRun : Bool) : List Char → List Char
  | [] => []
  | c :: rest =>
    if isSlugChar c then c :: slugCollapseAux false rest
    else if inRun then slugCollapseAux true rest
    else '-' :: slugCollapseAux true rest

/-- `re.sub(r"[^a-z0-9]+", "-", s.lower()).strip("-")`. -/
def slugify (s : String) : String :=
  String.mk (stripCharsOf ['-'] (slugCollapseAux false (lowerChars s.toList)))

/-- `_build_platform_search_url` of backend/apify_jobs_service.py. -/
def build_platform_search_url (platform title location : String) : String :=
  let safe_title := pyStrip (if title = "" then "software engineer" else title)
  let safe_location := sanitize_location location "India"
  let title_q := quote_plus safe_title
  let location_q := quote_plus safe_location
  let title_slug := if slugify safe_title = "" then "software-engineer" else slugify safe_title
  let location_slug := if slugify safe_location = "" then "india" else slugify safe_location
  if platform = "linkedin" then
    "https://www.linkedin.com/jobs/search/?keywords=" ++ title_q ++ "&location=" ++ location_q
  else if platform = "naukri" then
    "https://www.naukri.com/" ++ title_slug ++ "-jobs-in-" ++ location_slug
  else if platform = "internshala" then
    "https://internshala.com/internships/keywords-" ++ title_q ++ "/"
  else
    "https://www.google.com/search?q=" ++ title_q ++ "+jobs+" ++ location_q

/-- `_canonical_platform` of backend/apify_jobs_service.py. -/
def canonical_platform (source : UVal) : String :=
  let source_text := pyLower (String.mk (stripWS (pyStr (pyOr source (.str ""))).toList))
  if pyContains source_text "linkedin" then "linkedin"
  else if pyContains source_text "naukri" then "naukri"
  else if pyContains source_text "internshala" then "internshala"
  else if source_text = "" then "external"
  else source_text

/-- The candidate URL fields probed by `_extract_best_job_url`, in priority
order. -/
def candidateUrlKeys : List String :=
  ["link", "url", "jobUrl", "applyUrl", "applyLink", "job_url", "apply_url",
   "job_link", "apply_link", "application_url", "href", "jobHref"]

/-- `_extract_best_job_url` of backend/apify_jobs_service.py. -/
def extract_best_job_url (job : UDict) (platform : String) (default_location : String) : String :=
  let normalized := firstNonEmptyStr (candidateUrlKeys.map (fun k => normalize_external_url (pyGet job k)))
  if normalized ≠ "" then normalized
  else
    build_platform_search_url platform
      (pyStr (pyOr (pyGet job "title") (.str "software engineer")))
      (pyStr (pyOr (pyGet job "location") (pyOr (.str default_location) (.str "India"))))

end ApifyJobsService

namespace ApifyJobsService

open PyStr UVal

/-- A job dict as produced by the mapping loop of `fetch_jobs_from_apify`:
`url`/`source` are computed strings, the other fields hold the raw scraped
values. -/
structure MappedJob where
  title : UVal
  company_name : UVal
  location : UVal
  url : String
  description : UVal
  source : String
  posted_at : UVal
  stipend : UVal
  duration : UVal
deriving Repr, DecidableEq

/-- Dedup key of the URL-first de-duplication in `fetch_jobs_from_apify`. -/
inductive DedupKey where
  | byUrl (u : String)
  | byMeta (title company source : String)
deriving DecidableEq, Repr

/-- The key under which one mapped job is de-duplicated. -/
def dedup_key (j : MappedJob) : DedupKey :=
  let nu := normalize_external_url (.str j.url)
  if nu ≠ "" then .byUrl (pyLower nu)
  else .byMeta (pyLower (pyStrip (pyStr j.title)))
              (pyLower (pyStrip (pyStr j.company_name)))
              (pyLower (pyStrip j.source))

/-- The `seen`-set loop of the URL-first de-duplication. -/
def dedupGo (seen : List DedupKey) : List MappedJob → List MappedJob
  | [] => []
  | j :: rest =>
    let k := dedup_key j
    if k ∈ seen then dedupGo seen rest
    else j :: dedupGo (k :: seen) rest

/-- URL-first de-duplication of `fetch_jobs_from_apify` (first occurrence
wins). -/
def dedupJobs (jobs : List MappedJob) : List MappedJob := dedupGo [] jobs

/-- One cache entry: `{created_at, jobs, keywords, location}`. -/
structure CacheEntry where
  created_at : ℤ
  jobs : List MappedJob
  keywords : List String
  location : String
deriving Repr, DecidableEq

/-- The persisted cache file of backend/apify_jobs_service.py:
absent, unparsable JSON, the legacy single-entry shape, a parsable non-dict
payload, or the versioned multi-entry shape with its latest-key pointer. -/
inductive CacheFile where
  | missing
  | corrupt
  | legacy (created_at : ℤ) (jobs : List MappedJob)
  | nonDict
  | v2 (entries : List (String × CacheEntry)) (latest_key : String)
deriving Repr, DecidableEq

/-- `_load_cached_jobs` of backend/apify_jobs_service.py. -/
def load_cached_jobs (cache_key : String) (max_age_seconds : ℤ) (now : ℤ)
    (cf : CacheFile) : List MappedJob :=
  match cf with
  | .missing => []
  | .corrupt => []
  | .legacy created_at jobs =>
    if 0 < max_age_seconds ∧ 0 < created_at ∧ max_age_seconds < now - created_at then []
    else jobs
  | .nonDict => []
  | .v2 entries latest_key =>
    match (if cache_key ≠ "" then entries.lookup cache_key else Option.none) with
    | some entry =>
      if 0 < max_age_seconds ∧ 0 < entry.created_at ∧ max_age_seconds < now - entry.created_at
      then [] else entry.jobs
    | Option.none =>
      match (if latest_key ≠ "" then entries.lookup latest_key else Option.none) with
      | some latest =>
        if 0 < max_age_seconds ∧ 0 < latest.created_at ∧ max_age_seconds < now - latest.created_at
        then [] else latest.jobs
      | Option.none => []

/-- In-place-or-append update of `entries[cache_key] = entry` (Python dicts
keep the position of an existing key). -/
def updateAssoc (entries : List (String × CacheEntry)) (k : String) (e : CacheEntry) :
    List (String × CacheEntry) :=
  if (entries.lookup k).isSome then
    entries.map (fun kv => if kv.1 = k then (k, e) else kv)
  else entries ++ [(k, e)]

/-- `_save_cached_jobs` of backend/apify_jobs_service.py.  On an unparsable
existing file `json.load` raises, the exception is caught, and nothing is
written. -/
def save_cached_jobs (jobs : List MappedJob) (cache_key : String) (keywords : List String)
    (location : String) (now : ℤ) (cf : CacheFile) : CacheFile :=
  if jobs.isEmpty then cf
  else
    let entry : CacheEntry :=
      { created_at := now
        jobs := jobs
        keywords := normalize_keywords_for_cache keywords
        location := sanitize_location location "India" }
    match cf with
    | .corrupt => cf
    | .v2 entries _ => .v2 (updateAssoc entries cache_key entry) cache_key
    | _ => .v2 [(cache_key, entry)] cache_key

/-- The per-record mapping loop of `fetch_jobs_from_apify`. -/
def mapScrapedJob (location : String) (platform_name : String) (job : UDict) : MappedJob :=
  let source := canonical_platform ((job.get? "platform").getD (.str platform_name))
  let direct_url := normalize_external_url (pyOrList (candidateUrlKeys.map (pyGet job)))
  let url := if direct_url ≠ "" then direct_url
             else extract_best_job_url job source location
  { title := pyOr (pyGet job "title") (.str "Job Title")
    company_name := pyOr (pyGet job "company") (.str "Company")
    location := pyOr (pyGet job "location") (.str location)
    url := url
    description := (job.get? "description").getD (.str "")
    source := source
    posted_at := pyGet job "posted_date"
    stipend := pyGet job "salary"
    duration := pyGet job "duration" }

/-- The flattening/mapping stage of `fetch_jobs_from_apify`: `[]` when
`search_all_platforms` (or constructing the scraper) raised, else every
platform record mapped through the per-record loop. -/
def aggregate_scraped_jobs (scrapeOutcome : Except String (List (String × List UDict)))
    (location : String) : List MappedJob :=
  match scrapeOutcome with
  | .error _ => []
  | .ok scraped_data =>
    scraped_data.flatMap (fun pd => pd.2.map (mapScrapedJob location pd.1))

/-- `fetch_jobs_from_apify` of backend/apify_jobs_service.py, modelled over an
explicit scraper outcome (`search_all_platforms` result or the exception it
raised) and an explicit cache file; returns the listing list and the cache
file left behind. -/
def fetch_jobs_from_apify (keywords : List String) (location0 : String)
    (scrapeOutcome : Except String (List (String × List UDict)))
    (cf : CacheFile) (now fresh_cache_seconds fallback_cache_seconds : ℤ) :
    List MappedJob × CacheFile :=
  let location := sanitize_location location0 "India"
  let cache_key := build_cache_key keywords location
  let fresh_cached_jobs := load_cached_jobs cache_key fresh_cache_seconds now cf
  if !fresh_cached_jobs.isEmpty then (fresh_cached_jobs, cf)
  else
    let all_jobs := aggregate_scraped_jobs scrapeOutcome location
    let deduped := dedupJobs all_jobs
    if !deduped.isEmpty then
      (deduped, save_cached_jobs deduped cache_key keywords location now cf)
    else
      let cached_jobs := load_cached_jobs cache_key fallback_cache_seconds now cf
      if !cached_jobs.isEmpty then (cached_jobs, cf)
      else
        let latest_cached_jobs := load_cached_jobs "" fallback_cache_seconds now cf
        if !latest_cached_jobs.isEmpty then (latest_cached_jobs, cf)
        else (deduped, cf)

end ApifyJobsService

namespace ApifyJobScraper

open PyStr UVal

/-- `html.unescape` restricted to the named entities these scrapers emit
(`&amp;` is substituted last so that, e.g., `&amp;lt;` unescapes to `&lt;`
exactly as Python does in one pass). -/
def htmlUnescape (s : String) : String :=
  pyReplace (pyReplace (pyReplace (pyReplace (pyReplace s
    "&lt;" "<") "&gt;" ">") "&quot;" "\"") "&nbsp;" " ") "&amp;" "&"

/-- The string part of `ApifyJobScraper._normalize_http_url`
(apify/app/utils/apify_client.py): strip, HTML-unescape, repair malformed
ampersand encodings, then accept absolute/scheme-relative/bare-`www.` forms. -/
def normalize_http_url_text (s : String) : String :=
  let url := htmlUnescape (pyStrip s)
  let url := pyReplace url "?amp;" "?"
  let url := pyReplace url "&amp;" "&"
  let url := pyReplace url "amp;" ""
  if url = "" then ""
  else if pyStartsWith url "http://" || pyStartsWith url "https://" then url
  else if pyStartsWith url "//" then "https:" ++ url
  else if pyStartsWith url "www." then "https://" ++ url
  else ""

/-- The candidate keys scanned in the dict case of `_normalize_http_url`. -/
def httpUrlDictKeys : List String := ["url", "link", "href", "applyUrl", "jobUrl"]

/-- Fuel-driven recursion of `_normalize_http_url`; fuel is instantiated with
`usize v`, which bounds the recursion depth. -/
def normHttpFuel : Nat → UVal → String
  | 0, _ => ""
  | _ + 1, .none => ""
  | _ + 1, .str s => normalize_http_url_text s
  | f + 1, .list l => ApifyJobsService.firstNonEmptyStr (l.toList.map (normHttpFuel f))
  | f + 1, .dict d =>
      ApifyJobsService.firstNonEmptyStr
        (httpUrlDictKeys.filterMap (fun k => (d.get? k).map (normHttpFuel f)))

/-- `ApifyJobScraper._normalize_http_url`. -/
def normalize_http_url (v : UVal) : String := normHttpFuel (usize v) v

/-- `ApifyJobScraper._sanitize_location` (textually identical to
`_sanitize_location` of backend/apify_jobs_service.py). -/
def sanitize_location (location : String) (default : String) : String :=
  ApifyJobsService.sanitize_location location default

/-- `ApifyJobScraper._is_apify_limit_error`. -/
def is_apify_limit_error (message : String) : Bool :=
  let m := pyLower message
  pyContains m "monthly usage hard limit exceeded" || pyContains m "usage hard limit exceeded"

/-- `ApifyJobScraper._build_platform_search_url` (the client-side variant:
location is only defaulted and stripped, not sanitized). -/
def build_platform_search_url (platform title location : String) : String :=
  let platform_name := pyLower (pyStrip platform)
  let safe_title := pyStrip (if title = "" then "software engineer" else title)
  let safe_location := pyStrip (if location = "" then "India" else location)
  let title_q := ApifyJobsService.quote_plus safe_title
  let location_q := ApifyJobsService.quote_plus safe_location
  let title_slug :=
    if ApifyJobsService.slugify safe_title = "" then "software-engineer"
    else ApifyJobsService.slugify safe_title
  let location_slug :=
    if ApifyJobsService.slugify safe_location = "" then "india"
    else ApifyJobsService.slugify safe_location
  if platform_name = "linkedin" then
    "https://www.linkedin.com/jobs/search/?keywords=" ++ title_q ++ "&location=" ++ location_q
  else if platform_name = "naukri" then
    "https://www.naukri.com/" ++ title_slug ++ "-jobs-in-" ++ location_slug
  else if platform_name = "internshala" then
    "https://internshala.com/internships/keywords-" ++ title_q ++ "/"
  else
    "https://www.google.com/search?q=" ++ title_q ++ "+jobs+" ++ location_q

/-- The candidate-key loop of `ApifyJobScraper._extract_item_url`: probe each
key in order, return the first normalized URL, promoting platform-relative
paths on the way. -/
def extractItemUrlKeys (item : UDict) (platform : String) : List String → Option String
  | [] => Option.none
  | k :: ks =>
    match item.get? k with
    | Option.none => extractItemUrlKeys item platform ks
    | some raw =>
      let normalized := normalize_http_url raw
      if normalized ≠ "" then some normalized
      else
        match raw with
        | .str s =>
          let raw_text := htmlUnescape (pyStrip s)
          if pyStartsWith raw_text "/" then
            if platform = "linkedin" then some ("https://www.linkedin.com" ++ raw_text)
            else if platform = "naukri" then some ("https://www.naukri.com" ++ raw_text)
            else if platform = "internshala" then some ("https://internshala.com" ++ raw_text)
            else extractItemUrlKeys item platform ks
          else extractItemUrlKeys item platform ks
        | _ => extractItemUrlKeys item platform ks

/-- The nested-metadata keys probed by `_extract_item_url`. -/
def nestedMetaKeys : List String := ["job", "jobData", "meta", "metadata", "details"]

/-- `ApifyJobScraper._extract_item_url`. -/
def extract_item_url (item : UDict) (candidate_keys : List String)
    (platform title location : String) : String :=
  match extractItemUrlKeys item platform candidate_keys with
  | some url => url
  | Option.none =>
    let nested :=
      ApifyJobsService.firstNonEmptyStr
        (nestedMetaKeys.map (fun k => normalize_http_url (pyGet item k)))
    if nested ≠ "" then nested
    else build_platform_search_url platform title location

/-- `ApifyJobScraper._call_actor_with_fallback`, modelled over the outcome of
calling the actor with each credential (`behavior`): try credentials in pool
order, move to the next one on any failure (quota-exceeded failures only
differ in logging), return the first success, and raise the last error once
the pool is exhausted. -/
def call_actor_with_fallback (behavior : String → Except String UDict)
    (platform_name : String) : List String → Except String UDict
  | [] => .error (platform_name ++ " token pool is empty")
  | [t] => behavior t
  | t :: t2 :: ts =>
    match behavior t with
    | .ok run => .ok run
    | .error _ => call_actor_with_fallback behavior platform_name (t2 :: ts)

/-- A job record as assembled by `search_linkedin_jobs`. -/
structure ScrapedJob where
  title : UVal
  company : UVal
  location : UVal
  description : UVal
  link : String
  platform : String
  salary : UVal
  posted_date : UVal
  deadline : UVal
  applicants : UVal
deriving Repr, DecidableEq

/-- The candidate URL keys `search_linkedin_jobs` passes to
`_extract_item_url`. -/
def linkedinCandidateKeys : List String :=
  ["link", "url", "jobLink", "URL", "linkedinUrl", "applyUrl",
   "jobUrl", "externalApplyLink", "applyLink", "href",
   "job_url", "apply_url", "job_link", "apply_link"]

/-- The per-item mapping of `search_linkedin_jobs`. -/
def mkLinkedinJob (safe_location : String) (item : UDict) : ScrapedJob :=
  let title := pyOrList [pyGet item "jobTitle", pyGet item "title",
                         (item.get? "positionName").getD (.str "")]
  let link := extract_item_url item linkedinCandidateKeys "linkedin" (pyStr title) safe_location
  let company_raw := pyOr (pyGet item "companyName") ((item.get? "company").getD (.str ""))
  let company :=
    match company_raw with
    | .dict d => (d.get? "name").getD (.str "")
    | other => pyOr other (.str "")
  { title := title
    company := company
    location := pyOr (pyGet item "location") ((item.get? "jobLocation").getD (.str ""))
    description := pyOrList [pyGet item "description", pyGet item "jobDescription", .str ""]
    link := link
    platform := "LinkedIn"
    salary := pyOrList [pyGet item "salary", pyGet item "salaryRange", .str "Not specified"]
    posted_date := pyOrList [pyGet item "publishedAt", pyGet item "postedDate",
                             (item.get? "postedOn").getD (.str "")]
    deadline := pyOrList [pyGet item "expiresAt", pyGet item "closingDate",
                          pyGet item "applicationDeadline",
                          (item.get? "validThrough").getD (.str "")]
    applicants := pyOr (pyGet item "applicationsCount")
                       ((item.get? "applicants").getD (.str "N/A")) }

/-- `ApifyJobScraper.search_linkedin_jobs`, modelled over the outcome of the
actor call and the dataset it produced.  Both surrounding `try` blocks catch
every exception and fall through to `return jobs`, so the function returns
normally (`Except.ok`) on every input. -/
def search_linkedin_jobs (location : String) (callResult : Except String UDict)
    (dataset : List UDict) : Except String (List ScrapedJob) :=
  let safe_location := sanitize_location location "India"
  .ok
    (match callResult with
     | .error _ => []
     | .ok run =>
       if (pyGet run "defaultDatasetId").truthy then
         dataset.filterMap (fun item =>
           let job := mkLinkedinJob safe_location item
           if job.title.truthy then some job else Option.none)
       else [])

end ApifyJobScraper

namespace ApifyJobsService

open PyStr UVal

/-- A job record as assembled by `fetch_linkedin_jobs`
(backend/apify_jobs_service.py). -/
structure FetchedJob where
  title : UVal
  company_name : UVal
  location : UVal
  url : String
  description : UVal
  source : String
  posted_at : UVal
deriving Repr, DecidableEq

/-- The per-item step of `fetch_linkedin_jobs`: skip items without an
`http`-prefixed URL; a truthy non-string URL value has no `.startswith` and
raises (`AttributeError`), which the surrounding handler turns into `[]`. -/
def fetchLinkedinItem (location : String) (item : UDict) :
    Except String (Option FetchedJob) :=
  let job_url := pyOrList [pyGet item "jobUrl", pyGet item "url", pyGet item "link"]
  if !job_url.truthy then .ok Option.none
  else
    match job_url with
    | .str s =>
      if !pyStartsWith s "http" then .ok Option.none
      else
        .ok (some
          { title := pyOr (pyGet item "title") (.str "Job Title")
            company_name := pyOrList [pyGet item "companyName", pyGet item "company",
                                      .str "Company"]
            location := pyOr (pyGet item "location") (.str location)
            url := s
            description := pyOrList [pyGet item "description", pyGet item "summary",
                                     pyGet item "jobDescription", .str ""]
            source := "linkedin"
            posted_at := pyOr (pyGet item "postedAt") (pyGet item "datePosted") })
    | _ => .error "AttributeError: startswith"

/-- `fetch_linkedin_jobs` of backend/apify_jobs_service.py, modelled over the
outcome of the actor call (client construction, actor run and dataset
iteration collapsed into one `Except`).  The catch-all handler prints the
error and returns `[]`, so the function returns normally on every input. -/
def fetch_linkedin_jobs (keywords : List String)
    (callResult : Except String (List UDict)) (location : String) :
    Except String (List FetchedJob) :=
  if keywords.isEmpty then .ok []
  else
    .ok
      (match callResult with
       | .error _ => []
       | .ok items =>
         match items.mapM (fetchLinkedinItem location) with
         | .ok mapped => mapped.reduceOption
         | .error _ => [])

end ApifyJobsService

namespace AIRecommendationService

open PyStr

/-- The `_LOCATION_NOISE_TERMS` set of AIRecommendationService. -/
def locationNoiseTerms : List String :=
  ["implemented", "feedback", "rating", "mechanism", "notification",
   "authentication", "laravel", "typescript", "university", "bachelor",
   "batch", "cgpa", "hsc", "ssc", "skills", "project"]

/-- `AIRecommendationService.sanitize_location`
(backend/ai_recommendation_service.py). -/
def sanitize_location (location : String) (default : String) : String :=
  let cleaned := String.mk (stripCharsOf [' ', ',', ';'] (collapseWS location.toList))
  if cleaned = "" then default
  else if 80 < cleaned.toList.length then default
  else if pyContains (pyLower cleaned) "http://" || pyContains (pyLower cleaned) "https://" then
    default
  else
    let lowered := pyLower cleaned
    if locationNoiseTerms.any (fun term => pyContains lowered term) then default
    else if 8 < countTokens lowered then default
    else cleaned

/-- Python truncation `int(q)` (toward zero). -/
def pyInt (q : ℚ) : ℤ := if q < 0 then ⌈q⌉ else ⌊q⌋

/-- `set(s.lower().strip() for s in l)`. -/
def normSet (l : List String) : Finset String :=
  (l.map (fun s => pyLower (pyStrip s))).toFinset

/-- The fixed technology vocabulary of `_extract_skills_from_text`. -/
def techSkills : List String :=
  ["python", "java", "javascript", "typescript", "c++", "c#", "go", "rust", "ruby", "php",
   "react", "angular", "vue", "node.js", "nodejs", "express", "django", "flask", "spring",
   "sql", "mysql", "postgresql", "mongodb", "redis", "oracle", "database",
   "aws", "azure", "gcp", "google cloud", "docker", "kubernetes", "k8s", "terraform",
   "html", "css", "bootstrap", "tailwind", "sass", "less",
   "android", "ios", "react native", "flutter", "swift", "kotlin",
   "machine learning", "ml", "ai", "artificial intelligence", "data science",
   "pandas", "numpy", "tensorflow", "pytorch", "scikit-learn", "keras",
   "git", "github", "gitlab", "jenkins", "ci/cd", "devops",
   "agile", "scrum", "jira", "confluence"]

/-- `_extract_skills_from_text`: scan the lowered text for known technology
terms. -/
def extract_skills_from_text (text : String) : Finset String :=
  if text = "" then ∅
  else ((techSkills.filter (fun sk => pyContains (pyLower text) sk)).toFinset)

/-- `_normalize_skill`. -/
def normalize_skill (skill : String) : String :=
  let s := pyLower (pyStrip skill)
  let s := pyReplace (pyReplace (pyReplace s "programming" "") "development" "") "developer" ""
  let s := pyReplace (pyReplace (pyReplace s "experience" "") "knowledge" "") "skill" ""
  pyStrip s

/-- The alias table of `_fuzzy_skill_match`. -/
def skillAliases : List (String × String) :=
  [("js", "javascript"), ("nodejs", "node.js"), ("ml", "machine learning"),
   ("ai", "artificial intelligence"), ("k8s", "kubernetes"),
   ("postgres", "postgresql"), ("mongo", "mongodb")]

/-- `_fuzzy_skill_match`: exact, containment in either direction, then the
alias table. -/
def fuzzy_skill_match (resume_skill job_skill : String) : Bool :=
  let resume_norm := normalize_skill resume_skill
  let job_norm := normalize_skill job_skill
  if resume_norm = job_norm then true
  else if pyContains job_norm resume_norm || pyContains resume_norm job_norm then true
  else
    let resume_alias := ((skillAliases.lookup resume_norm).getD resume_norm)
    let job_alias := ((skillAliases.lookup job_norm).getD job_norm)
    resume_alias = job_alias || pyContains job_alias resume_alias ||
      pyContains resume_alias job_alias

/-- `_calculate_skill_match`: exact overlap plus fuzzy matches of the
remainder, as a fraction of the job-skill count, scaled to 0-100 and capped. -/
def calculate_skill_match (resume_skills job_skills : Finset String) : ℚ :=
  if job_skills = ∅ then 0
  else if resume_skills = ∅ then 0
  else
    let exact_matches := (resume_skills ∩ job_skills).card
    let remaining_resume := resume_skills \ job_skills
    let remaining_job := job_skills \ resume_skills
    let fuzzy_matches :=
      (remaining_resume.filter (fun r => ∃ j ∈ remaining_job, fuzzy_skill_match r j)).card
    let total_matches := exact_matches + fuzzy_matches
    let total := job_skills.card
    if total = 0 then 0
    else min (((total_matches : ℚ) / (total : ℚ)) * 100) 100

/-- `_calculate_keyword_match`: fraction of resume keywords occurring in the
description, scaled to 0-100 and capped. -/
def calculate_keyword_match (resume_keywords : Finset String) (job_description : String) : ℚ :=
  if resume_keywords = ∅ ∨ job_description = "" then 0
  else
    let found_keywords := (resume_keywords.filter (fun kw => pyContains job_description kw)).card
    min (((found_keywords : ℚ) / (resume_keywords.card : ℚ)) * 100) 100

/-- `_generate_match_reason`: bucketed by the exact-overlap percentage. -/
def generate_match_reason (matched_skills job_skills : Finset String) : String :=
  let matched_count := matched_skills.card
  let total_count := job_skills.card
  if matched_count = 0 then "No skills match found"
  else
    let match_percent : ℤ :=
      if 0 < total_count then pyInt (((matched_count : ℚ) / (total_count : ℚ)) * 100) else 0
    if 80 ≤ match_percent then
      "Excellent match! You have " ++ toString matched_count ++ " out of " ++
        toString total_count ++ " required skills (" ++ toString match_percent ++ "% match)"
    else if 60 ≤ match_percent then
      "Strong match with " ++ toString matched_count ++ " out of " ++
        toString total_count ++ " required skills (" ++ toString match_percent ++ "% match)"
    else if 40 ≤ match_percent then
      "Moderate match with " ++ toString matched_count ++ " out of " ++
        toString total_count ++ " required skills (" ++ toString match_percent ++ "% match)"
    else
      "Partial match with " ++ toString matched_count ++ " out of " ++
        toString total_count ++ " required skills (" ++ toString match_percent ++ "% match)"

/-- The effective job-skill set of one `match_jobs` iteration: the normalized
`required_skills` if non-empty, else skills extracted from title and
description. -/
def effective_job_skills (required_skills : List String) (title description : String) :
    Finset String :=
  let job_skills := normSet required_skills
  if job_skills = ∅ then extract_skills_from_text (title ++ " " ++ description)
  else job_skills

/-- The scoring pipeline of one `match_jobs` iteration (non-LLM path), given
the text-similarity sub-score (the TF-IDF cosine of `_calculate_cosine_similarity`,
already scaled to 0-100, supplied externally): weighted blend, floor at 10 on
any skill/keyword signal, cap at 100, truncate, clamp at 0; paired with the
generated match reason. -/
def match_job_score (resume_skills resume_keywords : Finset String)
    (required_skills : List String) (title description : String)
    (cosine_score : ℚ) : ℤ × String :=
  let job_skills := effective_job_skills required_skills title description
  let job_description := pyLower description
  let skill_match_score := calculate_skill_match resume_skills job_skills
  let keyword_match_score := calculate_keyword_match resume_keywords job_description
  let base_score := skill_match_score * 0.6 + keyword_match_score * 0.25 + cosine_score * 0.15
  let final_score :=
    if 0 < skill_match_score ∨ 0 < keyword_match_score then max base_score 10 else base_score
  let final_score := min final_score 100
  let matched_skills := resume_skills ∩ job_skills
  let match_reason := generate_match_reason matched_skills job_skills
  let match_score := max (pyInt final_score) 0
  (match_score, match_reason)

end AIRecommendationService

namespace ApifyRecommendationQueue

/-- The job lifecycle states of backend/apify_recommendation_queue.py. -/
inductive JobStatus where
  | queued | running | succeeded | failed | cancelled
deriving DecidableEq, Repr

/-- `status in {"queued", "running"}`. -/
def JobStatus.isActive : JobStatus → Bool
  | .queued => true
  | .running => true
  | _ => false

/-- `status in {"succeeded", "failed", "cancelled"}`. -/
def JobStatus.isTerminal : JobStatus → Bool
  | .succeeded => true
  | .failed => true
  | .cancelled => true
  | _ => false

/-- The `RecommendationJob` dataclass.  `user_id` is compared through `str()`
in the source and is modelled as the resulting string; `resume_analysis` is
modelled by its canonical JSON serialization (it is only hashed and passed
through); `recommendations` entries are opaque. -/
structure RecommendationJob where
  job_id : String
  user_id : String
  payload_hash : String
  resume_analysis : String
  use_apify : Bool
  top_n : ℤ
  location : String
  status : JobStatus := .queued
  created_at : ℤ
  started_at : Option ℤ := Option.none
  completed_at : Option ℤ := Option.none
  error : String := ""
  recommendations : List String := []
deriving DecidableEq, Repr

/-- The inputs of one `enqueue` call besides the owner. -/
structure EnqueuePayload where
  resume_analysis : String
  use_apify : Bool
  top_n : ℤ
  location : String
deriving DecidableEq, Repr

/-- The tunables read from the environment at import time. -/
structure QueueConfig where
  job_ttl_seconds : ℤ
  max_active_jobs_per_user : Nat
deriving Repr

/-- The jobs map (`self._jobs`), in insertion order (Python dicts preserve
it); job ids are unique. -/
abbrev QState := List RecommendationJob

/-- `self._jobs.get(job_id)`. -/
def findJob (st : QState) (jid : String) : Option RecommendationJob :=
  st.find? (fun j => j.job_id == jid)

/-- `_hash_payload`: `sha256(json.dumps(key_payload, sort_keys=True))`,
modelled as the normalized serialization itself (a collision-free abstraction
of the digest; dict keys appear in sorted order). -/
def hash_payload (user_id : String) (p : EnqueuePayload) : String :=
  "\x7b\"location\":\"" ++ AIRecommendationService.sanitize_location p.location "India" ++
    "\",\"resume_analysis\":" ++ p.resume_analysis ++
    ",\"top_n\":" ++ toString p.top_n ++
    ",\"use_apify\":" ++ (if p.use_apify then "true" else "false") ++
    ",\"user_id\":\"" ++ user_id ++ "\"\x7d"

/-- `_cleanup_expired_locked`: drop terminal jobs whose terminal time
(`completed_at or created_at`) is older than the TTL. -/
def cleanup_expired (cfg : QueueConfig) (now : ℤ) (st : QState) : QState :=
  st.filter (fun j =>
    !(j.status.isTerminal &&
      decide (cfg.job_ttl_seconds < now - (j.completed_at.getD j.created_at))))

/-- `_find_duplicate_active_job_locked`: first job of the same owner, still
queued or running, with the same payload hash. -/
def find_duplicate_active_job (st : QState) (user_id payload_hash : String) :
    Option RecommendationJob :=
  st.find? (fun j => j.user_id == user_id && j.status.isActive && j.payload_hash == payload_hash)

/-- `_active_jobs_for_user_locked`. -/
def active_jobs_for_user (st : QState) (user_id : String) : Nat :=
  (st.filter (fun j => j.user_id == user_id && j.status.isActive)).length

/-- Point update of the job with the given id (the source mutates the stored
object in place). -/
def update_job (st : QState) (jid : String) (f : RecommendationJob → RecommendationJob) :
    QState :=
  st.map (fun j => if j.job_id == jid then f j else j)

/-- `enqueue`: TTL sweep, duplicate-active lookup, per-owner capacity check,
then creation of a fresh `queued` job.  `fresh_id` stands for `uuid4().hex`;
the returned state is the jobs map the call leaves behind (also when it
raises the capacity `RuntimeError`, modelled as `.error`). -/
def enqueue (cfg : QueueConfig) (now : ℤ) (fresh_id : String) (user_id : String)
    (p : EnqueuePayload) (st : QState) :
    Except String (RecommendationJob × Bool) × QState :=
  let payload_hash := hash_payload user_id p
  let st1 := cleanup_expired cfg now st
  match find_duplicate_active_job st1 user_id payload_hash with
  | some duplicate => (.ok (duplicate, false), st1)
  | Option.none =>
    if cfg.max_active_jobs_per_user ≤ active_jobs_for_user st1 user_id then
      (.error ("Too many active recommendation jobs (" ++
        toString cfg.max_active_jobs_per_user ++ " max). Please wait."), st1)
    else
      let job : RecommendationJob :=
        { job_id := fresh_id
          user_id := user_id
          payload_hash := payload_hash
          resume_analysis := p.resume_analysis
          use_apify := p.use_apify
          top_n := p.top_n
          location := AIRecommendationService.sanitize_location p.location "India"
          status := .queued
          created_at := now }
      (.ok (job, true), st1 ++ [job])

/-- The in-place mutation `cancel_job` applies to the found job. -/
def cancelMark (now : ℤ) (j : RecommendationJob) : RecommendationJob :=
  { j with status := .cancelled, completed_at := some now, error := "Cancelled by user" }

/-- The in-place mutation the first locked block of `_process_job` applies. -/
def runningMark (now1 : ℤ) (j : RecommendationJob) : RecommendationJob :=
  { j with status := .running, started_at := some now1 }

/-- `cancel_job`: only the owner's still-`queued` job can be cancelled;
everything else is refused and the state left unchanged. -/
def cancel_job (now : ℤ) (jid user_id : String) (st : QState) : Bool × QState :=
  match findJob st jid with
  | Option.none => (false, st)
  | some job =>
    if job.user_id ≠ user_id then (false, st)
    else if job.status ≠ .queued then (false, st)
    else (true, update_job st jid (cancelMark now))

/-- `get_job`: TTL sweep, then owner-checked lookup. -/
def get_job (cfg : QueueConfig) (now : ℤ) (jid user_id : String) (st : QState) :
    Option RecommendationJob × QState :=
  let st1 := cleanup_expired cfg now st
  match findJob st1 jid with
  | Option.none => (Option.none, st1)
  | some job => if job.user_id ≠ user_id then (Option.none, st1) else (some job, st1)

/-- `error_text` of `_process_job`: the stringified exception, or `""` when
`get_recommendations` returned normally. -/
def outcomeErrorText (outcome : Except String (List String)) : String :=
  match outcome with | .ok _ => "" | .error e => e

/-- The recommendations collected by `_process_job` (empty on exception). -/
def outcomeRecommendations (outcome : Except String (List String)) : List String :=
  match outcome with | .ok r => r | .error _ => []

/-- `_process_job`, as one step: claim the job (`queued → running`), run
`get_recommendations` (its outcome — result list or exception text — is the
`outcome` parameter), then record the terminal state under the lock. -/
def process_job (jid : String) (now1 : ℤ) (outcome : Except String (List String))
    (now2 : ℤ) (st : QState) : QState :=
  match findJob st jid with
  | Option.none => st
  | some job =>
    if job.status ≠ .queued then st
    else
      let st1 := update_job st jid (runningMark now1)
      match findJob st1 jid with
      | Option.none => st1
      | some current =>
        if current.status = .cancelled then
          update_job st1 jid (fun j => { j with completed_at := some now2 })
        else if outcomeErrorText outcome ≠ "" then
          update_job st1 jid (fun j =>
            { j with status := .failed, error := outcomeErrorText outcome,
                     completed_at := some now2 })
        else
          update_job st1 jid (fun j =>
            { j with status := .succeeded,
                     recommendations := outcomeRecommendations outcome,
                     completed_at := some now2 })

/-- The operations that touch the jobs map. -/
inductive QOp where
  | enq (now : ℤ) (fresh_id user_id : String) (p : EnqueuePayload)
  | cancel (now : ℤ) (jid user_id : String)
  | get (now : ℤ) (jid user_id : String)
  | process (jid : String) (now1 : ℤ) (outcome : Except String (List String)) (now2 : ℤ)

/-- State effect of one operation. -/
def applyOp (cfg : QueueConfig) : QOp → QState → QState
  | .enq now fresh_id user_id p, st => (enqueue cfg now fresh_id user_id p st).2
  | .cancel now jid user_id, st => (cancel_job now jid user_id st).2
  | .get now jid user_id, st => (get_job cfg now jid user_id st).2
  | .process jid now1 outcome now2, st => process_job jid now1 outcome now2 st

/-- Freshness of the `uuid4` id an `enqueue` would use (uuid collisions are
assumed away). -/
def opFresh : QOp → QState → Prop
  | .enq _ fresh_id _ _, st => ∀ j ∈ st, j.job_id ≠ fresh_id
  | _, _ => True

/-- The one-directional lifecycle order on statuses:
`queued → running → {succeeded, failed, cancelled}`, and terminal states are
final. -/
def statusLE (a b : JobStatus) : Prop :=
  a = b ∨ a = .queued ∨ (a = .running ∧ b.isTerminal = true)

end ApifyRecommendationQueue

namespace ApifyJobScraper

/-- All credentials failing makes the fallback return the last credential's
outcome. -/
theorem callFallback_all_fail (behavior : String → Except String UDict)
    (platform_name : String) :
    ∀ (pool : List String) (hne : pool ≠ []),
      (∀ t ∈ pool, ∃ msg, behavior t = .error msg) →
      call_actor_with_fallback behavior platform_name pool = behavior (pool.getLast hne)
  | [], hne, _ => absurd rfl hne
  | [t], _, _ => by simp [call_actor_with_fallback]
  | t :: t2 :: ts, _, hfail => by
    obtain ⟨msg, hmsg⟩ := hfail t (by simp)
    have ih := callFallback_all_fail behavior platform_name (t2 :: ts) (by simp)
      (fun x hx => hfail x (by simp [hx]))
    simp only [call_actor_with_fallback, hmsg]
    rw [ih]
    exact congrArg behavior (List.getLast_cons (by simp)).symm

/-- The first succeeding credential's run is returned. -/
theorem callFallback_first_ok (behavior : String → Except String UDict)
    (platform_name : String) :
    ∀ (pool : List String) (i : Nat) (hi : i < pool.length) (run : UDict),
      behavior (pool.get ⟨i, hi⟩) = .ok run →
      (∀ j (hj : j < pool.length), j < i → ∃ msg, behavior (pool.get ⟨j, hj⟩) = .error msg) →
      call_actor_with_fallback behavior platform_name pool = .ok run
  | [], i, hi, _, _, _ => absurd hi (by simp)
  | [t], 0, _, run, hok, _ => by simpa [call_actor_with_fallback] using hok
  | [t], i + 1, hi, _, _, _ => by simp at hi
  | t :: t2 :: ts, 0, _, run, hok, _ => by
    simp only [List.get] at hok
    simp [call_actor_with_fallback, hok]
  | t :: t2 :: ts, i + 1, hi, run, hok, hprev => by
    obtain ⟨msg, hmsg⟩ := hprev 0 (by simp) (Nat.succ_pos i)
    simp only [List.get] at hmsg hok
    have ih := callFallback_first_ok behavior platform_name (t2 :: ts) i
      (by simpa using Nat.lt_of_succ_lt_succ hi) run hok
      (fun j hj hji => by
        have := hprev (j + 1) (by simpa using Nat.succ_lt_succ hj) (Nat.succ_lt_succ hji)
        simpa [List.get] using this)
    simp only [call_actor_with_fallback, hmsg]
    exact ih

end ApifyJobScraper

/-- C7: `_call_actor_with_fallback` tries credentials in pool order: it
returns the run of the first credential whose call succeeds (advancing past
every earlier failure, quota-related or not), and when every credential in
the pool fails it raises the last error encountered (the last credential's
error). -/
theorem c7_call_actor_with_fallback_rotation
    (behavior : String → Except String UDict) (platform_name : String)
    (pool : List String) (hne : pool ≠ []) :
    ((∀ t ∈ pool, ∃ msg, behavior t = .error msg) →
      ApifyJobScraper.call_actor_with_fallback behavior platform_name pool =
        behavior (pool.getLast hne))
    ∧ (∀ i (hi : i < pool.length) (run : UDict),
        behavior (pool.get ⟨i, hi⟩) = .ok run →
        (∀ j (hj : j < pool.length), j < i → ∃ msg, behavior (pool.get ⟨j, hj⟩) = .error msg) →
        ApifyJobScraper.call_actor_with_fallback behavior platform_name pool = .ok run) :=
  ⟨ApifyJobScraper.callFallback_all_fail behavior platform_name pool hne,
   fun i hi run hok hprev =>
     ApifyJobScraper.callFallback_first_ok behavior platform_name pool i hi run hok hprev⟩

/-- Witness for C7 at a concrete two-credential pool: the first credential is
quota-limited, the second succeeds, and the call returns the second's run;
with both failing, the second credential's error is raised. -/
theorem c7_call_actor_with_fallback_rotation_witness :
    ApifyJobScraper.call_actor_with_fallback
        (fun t => if t = "tok2" then .ok .nil else .error ("quota " ++ t))
        "LinkedIn" ["tok1", "tok2"] = .ok .nil
    ∧ ApifyJobScraper.call_actor_with_fallback
        (fun t => .error ("usage hard limit exceeded: " ++ t))
        "LinkedIn" ["tok1", "tok2"] = .error ("usage hard limit exceeded: " ++ "tok2") :=
  ⟨(c7_call_actor_with_fallback_rotation
      (fun t => if t = "tok2" then .ok .nil else .error ("quota " ++ t))
      "LinkedIn" ["tok1", "tok2"] (by decide)).2 1 (by decide) .nil rfl
      (fun j hj hji => by
        have hj0 : j = 0 := Nat.lt_one_iff.mp hji
        subst hj0
        exact ⟨"quota tok1", rfl⟩),
   (c7_call_actor_with_fallback_rotation
      (fun t => .error ("usage hard limit exceeded: " ++ t))
      "LinkedIn" ["tok1", "tok2"] (by decide)).1
      (fun t _ => ⟨"usage hard limit exceeded: " ++ t, rfl⟩)⟩

namespace AIRecommendationService

/-- The skill sub-score is nonnegative. -/
theorem skill_match_nonneg (rs js : Finset String) : 0 ≤ calculate_skill_match rs js := by
  unfold calculate_skill_match
  dsimp only
  split
  · exact le_refl 0
  split
  · exact le_refl 0
  split
  · exact le_refl 0
  · exact le_min (by positivity) (by norm_num)

/-- The skill sub-score is at most 100. -/
theorem skill_match_le_100 (rs js : Finset String) : calculate_skill_match rs js ≤ 100 := by
  unfold calculate_skill_match
  dsimp only
  split
  · norm_num
  split
  · norm_num
  split
  · norm_num
  · exact min_le_right _ _

/-- The keyword sub-score is nonnegative. -/
theorem keyword_match_nonneg (rk : Finset String) (d : String) :
    0 ≤ calculate_keyword_match rk d := by
  unfold calculate_keyword_match
  split
  · exact le_refl 0
  · exact le_min (by positivity) (by norm_num)

/-- The keyword sub-score is at most 100. -/
theorem keyword_match_le_100 (rk : Finset String) (d : String) :
    calculate_keyword_match rk d ≤ 100 := by
  unfold calculate_keyword_match
  split
  · norm_num
  · exact min_le_right _ _

/-- A non-empty exact skill overlap makes the skill sub-score positive. -/
theorem skill_match_pos_of_inter (rs js : Finset String) (h : (rs ∩ js).Nonempty) :
    0 < calculate_skill_match rs js := by
  obtain ⟨x, hx⟩ := h
  have hxr : x ∈ rs := Finset.mem_of_mem_inter_left hx
  have hxj : x ∈ js := Finset.mem_of_mem_inter_right hx
  have hjs : js ≠ ∅ := Finset.ne_empty_of_mem hxj
  have hrs : rs ≠ ∅ := Finset.ne_empty_of_mem hxr
  have hcard : 0 < js.card := Finset.card_pos.mpr ⟨x, hxj⟩
  unfold calculate_skill_match
  rw [if_neg hjs, if_neg hrs, if_neg (Nat.pos_iff_ne_zero.mp hcard)]
  refine lt_min ?_ (by norm_num)
  have hinter : 0 < (rs ∩ js).card := Finset.card_pos.mpr ⟨x, hx⟩
  have hnum : (0 : ℚ) < ((rs ∩ js).card + ((rs \ js).filter
      (fun r => ∃ j ∈ js \ rs, fuzzy_skill_match r j)).card : ℚ) := by
    have : (0 : ℚ) < ((rs ∩ js).card : ℚ) := by exact_mod_cast hinter
    have h2 : (0 : ℚ) ≤ (((rs \ js).filter
        (fun r => ∃ j ∈ js \ rs, fuzzy_skill_match r j)).card : ℚ) := by positivity
    push_cast
    linarith
  have hden : (0 : ℚ) < (js.card : ℚ) := by exact_mod_cast hcard
  positivity

/-- A resume keyword found in a non-empty description makes the keyword
sub-score positive. -/
theorem keyword_match_pos (rk : Finset String) (d : String) (hd : d ≠ "")
    (h : ∃ kw ∈ rk, PyStr.pyContains d kw = true) :
    0 < calculate_keyword_match rk d := by
  obtain ⟨kw, hkw, hfound⟩ := h
  have hrk : ¬(rk = ∅ ∨ d = "") := by
    push_neg
    exact ⟨Finset.ne_empty_of_mem hkw, hd⟩
  unfold calculate_keyword_match
  rw [if_neg hrk]
  refine lt_min ?_ (by norm_num)
  have hfoundpos : 0 < (rk.filter (fun kw => PyStr.pyContains d kw)).card :=
    Finset.card_pos.mpr ⟨kw, Finset.mem_filter.mpr ⟨hkw, hfound⟩⟩
  have hcard : 0 < rk.card := Finset.card_pos.mpr ⟨kw, hkw⟩
  have h1 : (0 : ℚ) < ((rk.filter (fun kw => PyStr.pyContains d kw)).card : ℚ) := by
    exact_mod_cast hfoundpos
  have h2 : (0 : ℚ) < (rk.card : ℚ) := by exact_mod_cast hcard
  positivity

/-- A zero skill sub-score forces an empty exact overlap. -/
theorem inter_empty_of_skill_match_zero (rs js : Finset String)
    (h : calculate_skill_match rs js = 0) : rs ∩ js = ∅ := by
  by_contra hne
  have hpos : 0 < calculate_skill_match rs js :=
    skill_match_pos_of_inter rs js (Finset.nonempty_iff_ne_empty.mpr hne)
  rw [h] at hpos
  exact lt_irrefl 0 hpos

/-- `int()` of a nonnegative rational is nonnegative. -/
theorem pyInt_nonneg {q : ℚ} (h : 0 ≤ q) : 0 ≤ pyInt q := by
  unfold pyInt
  rw [if_neg (not_lt.mpr h)]
  exact Int.le_floor.mpr (by exact_mod_cast h)

/-- `int()` of a nonnegative rational bounded by an integer stays bounded. -/
theorem pyInt_le_of_le {q : ℚ} {n : ℤ} (h0 : 0 ≤ q) (h : q ≤ (n : ℚ)) : pyInt q ≤ n := by
  unfold pyInt
  rw [if_neg (not_lt.mpr h0)]
  calc ⌊q⌋ ≤ ⌊(n : ℚ)⌋ := Int.floor_le_floor h
  _ = n := Int.floor_intCast n

/-- `int()` keeps integer lower bounds. -/
theorem le_pyInt_of_le {q : ℚ} {n : ℤ} (h : (n : ℚ) ≤ q) : n ≤ pyInt q := by
  unfold pyInt
  split
  · calc n = ⌈(n : ℚ)⌉ := (Int.ceil_intCast n).symm
    _ ≤ ⌈q⌉ := Int.ceil_le_ceil h
  · exact Int.le_floor.mpr h

end AIRecommendationService

namespace AIRecommendationService

/-- Unfolding of the score component of one `match_jobs` iteration. -/
theorem match_job_score_fst_eq (rs rk : Finset String) (required : List String)
    (title desc : String) (c : ℚ) :
    (match_job_score rs rk required title desc c).1 =
      max (pyInt (min
        (if 0 < calculate_skill_match rs (effective_job_skills required title desc) ∨
            0 < calculate_keyword_match rk (PyStr.pyLower desc) then
          max (calculate_skill_match rs (effective_job_skills required title desc) * 0.6 +
              calculate_keyword_match rk (PyStr.pyLower desc) * 0.25 + c * 0.15) 10
        else
          calculate_skill_match rs (effective_job_skills required title desc) * 0.6 +
            calculate_keyword_match rk (PyStr.pyLower desc) * 0.25 + c * 0.15) 100)) 0 := rfl

/-- Unfolding of the reason component of one `match_jobs` iteration. -/
theorem match_job_score_snd_eq (rs rk : Finset String) (required : List String)
    (title desc : String) (c : ℚ) :
    (match_job_score rs rk required title desc c).2 =
      generate_match_reason (rs ∩ effective_job_skills required title desc)
        (effective_job_skills required title desc) := rfl

end AIRecommendationService

/-- C2: in the non-LLM path of `match_jobs`, the score of every listing is
the weighted blend of the skill (0.6), keyword (0.25) and text-similarity
(0.15) sub-scores, then floored at 10 exactly when the skill or keyword
sub-score is strictly positive, then capped at 100 (in that order); hence
every returned `match_score` lies in `[0, 100]` and is at least 10 whenever
any skill or keyword overlap exists. -/
theorem c2_match_jobs_score_order
    (resume_skills resume_keywords : Finset String) (required_skills : List String)
    (title description : String) (cosine_score : ℚ)
    (job_skills : Finset String) (s k : ℚ) (score : ℤ)
    (hjs : job_skills = AIRecommendationService.effective_job_skills required_skills
      title description)
    (hs : s = AIRecommendationService.calculate_skill_match resume_skills job_skills)
    (hk : k = AIRecommendationService.calculate_keyword_match resume_keywords
      (PyStr.pyLower description))
    (hscore : score = (AIRecommendationService.match_job_score resume_skills resume_keywords
      required_skills title description cosine_score).1)
    (hc0 : 0 ≤ cosine_score) (hc100 : cosine_score ≤ 100) :
    score =
      max (AIRecommendationService.pyInt (min
        (if 0 < s ∨ 0 < k then
          max (s * 0.6 + k * 0.25 + cosine_score * 0.15) 10
        else s * 0.6 + k * 0.25 + cosine_score * 0.15) 100)) 0
    ∧ 0 ≤ score ∧ score ≤ 100
    ∧ ((0 < s ∨ 0 < k) → 10 ≤ score)
    ∧ ((resume_skills ∩ job_skills).Nonempty → 10 ≤ score)
    ∧ ((PyStr.pyLower description ≠ "" ∧
          ∃ kw ∈ resume_keywords, PyStr.pyContains (PyStr.pyLower description) kw = true) →
        10 ≤ score) := by
  subst hjs hs hk hscore
  have hs0 : 0 ≤ AIRecommendationService.calculate_skill_match resume_skills
      (AIRecommendationService.effective_job_skills required_skills title description) :=
    AIRecommendationService.skill_match_nonneg _ _
  have hs100 : AIRecommendationService.calculate_skill_match resume_skills
      (AIRecommendationService.effective_job_skills required_skills title description) ≤ 100 :=
    AIRecommendationService.skill_match_le_100 _ _
  have hk0 : 0 ≤ AIRecommendationService.calculate_keyword_match resume_keywords
      (PyStr.pyLower description) := AIRecommendationService.keyword_match_nonneg _ _
  have hk100 : AIRecommendationService.calculate_keyword_match resume_keywords
      (PyStr.pyLower description) ≤ 100 := AIRecommendationService.keyword_match_le_100 _ _
  set s := AIRecommendationService.calculate_skill_match resume_skills
    (AIRecommendationService.effective_job_skills required_skills title description) with hsdef
  set k := AIRecommendationService.calculate_keyword_match resume_keywords
    (PyStr.pyLower description) with hkdef
  have hbase0 : 0 ≤ s * 0.6 + k * 0.25 + cosine_score * 0.15 := by positivity
  have hbase100 : s * 0.6 + k * 0.25 + cosine_score * 0.15 ≤ 100 := by nlinarith
  have hscore_eq : (AIRecommendationService.match_job_score resume_skills resume_keywords
      required_skills title description cosine_score).1 =
      max (AIRecommendationService.pyInt (min
        (if 0 < s ∨ 0 < k then
          max (s * 0.6 + k * 0.25 + cosine_score * 0.15) 10
        else s * 0.6 + k * 0.25 + cosine_score * 0.15) 100)) 0 := rfl
  have hfinal0 : 0 ≤ (if 0 < s ∨ 0 < k then
      max (s * 0.6 + k * 0.25 + cosine_score * 0.15) 10
    else s * 0.6 + k * 0.25 + cosine_score * 0.15) := by
    split
    · exact le_trans hbase0 (le_max_left _ _)
    · exact hbase0
  have hfinal100 : (if 0 < s ∨ 0 < k then
      max (s * 0.6 + k * 0.25 + cosine_score * 0.15) 10
    else s * 0.6 + k * 0.25 + cosine_score * 0.15) ≤ 100 := by
    split
    · exact max_le hbase100 (by norm_num)
    · exact hbase100
  have hmin0 : 0 ≤ min (if 0 < s ∨ 0 < k then
      max (s * 0.6 + k * 0.25 + cosine_score * 0.15) 10
    else s * 0.6 + k * 0.25 + cosine_score * 0.15) 100 := le_min hfinal0 (by norm_num)
  have hle : (AIRecommendationService.match_job_score resume_skills resume_keywords
      required_skills title description cosine_score).1 ≤ 100 := by
    rw [hscore_eq]
    refine max_le ?_ (by norm_num)
    exact AIRecommendationService.pyInt_le_of_le hmin0 (by
      exact_mod_cast min_le_right _ (100 : ℚ))
  have hge : 0 ≤ (AIRecommendationService.match_job_score resume_skills resume_keywords
      required_skills title description cosine_score).1 := by
    rw [hscore_eq]
    exact le_max_right _ _
  have hfloor : (0 < s ∨ 0 < k) → 10 ≤ (AIRecommendationService.match_job_score resume_skills
      resume_keywords required_skills title description cosine_score).1 := by
    intro hov
    rw [hscore_eq]
    have h10 : (10 : ℚ) ≤ min (if 0 < s ∨ 0 < k then
        max (s * 0.6 + k * 0.25 + cosine_score * 0.15) 10
      else s * 0.6 + k * 0.25 + cosine_score * 0.15) 100 := by
      rw [if_pos hov]
      exact le_min (le_max_right _ _) (by norm_num)
    have h10i : (10 : ℤ) ≤ AIRecommendationService.pyInt (min (if 0 < s ∨ 0 < k then
        max (s * 0.6 + k * 0.25 + cosine_score * 0.15) 10
      else s * 0.6 + k * 0.25 + cosine_score * 0.15) 100) :=
      AIRecommendationService.le_pyInt_of_le (by exact_mod_cast h10)
    exact le_trans h10i (le_max_left _ _)
  refine ⟨hscore_eq, hge, hle, hfloor, ?_, ?_⟩
  · intro hinter
    exact hfloor (Or.inl (AIRecommendationService.skill_match_pos_of_inter _ _ hinter))
  · intro ⟨hd, hkw⟩
    exact hfloor (Or.inr (AIRecommendationService.keyword_match_pos _ _ hd hkw))

/-- Witness for C2 at a concrete resume/listing pair with cosine sub-score
50: the score is within bounds and at least 10 under the skill overlap. -/
theorem c2_match_jobs_score_order_witness :
    (0 : ℚ) ≤ 50 ∧ (50 : ℚ) ≤ 100 ∧
    (0 ≤ (AIRecommendationService.match_job_score
        (AIRecommendationService.normSet ["Python", "react"])
        (AIRecommendationService.normSet ["api"])
        ["python", "sql"] "Backend Dev" "Work with python and api design" 50).1
      ∧ (AIRecommendationService.match_job_score
        (AIRecommendationService.normSet ["Python", "react"])
        (AIRecommendationService.normSet ["api"])
        ["python", "sql"] "Backend Dev" "Work with python and api design" 50).1 ≤ 100
      ∧ 10 ≤ (AIRecommendationService.match_job_score
        (AIRecommendationService.normSet ["Python", "react"])
        (AIRecommendationService.normSet ["api"])
        ["python", "sql"] "Backend Dev" "Work with python and api design" 50).1) := by
  refine ⟨by decide, by decide, ?_, ?_, ?_⟩
  · exact (c2_match_jobs_score_order (AIRecommendationService.normSet ["Python", "react"])
      (AIRecommendationService.normSet ["api"]) ["python", "sql"] "Backend Dev"
      "Work with python and api design" 50 _ _ _ _ rfl rfl rfl rfl
      (by decide) (by decide)).2.1
  · exact (c2_match_jobs_score_order (AIRecommendationService.normSet ["Python", "react"])
      (AIRecommendationService.normSet ["api"]) ["python", "sql"] "Backend Dev"
      "Work with python and api design" 50 _ _ _ _ rfl rfl rfl rfl
      (by decide) (by decide)).2.2.1
  · exact (c2_match_jobs_score_order (AIRecommendationService.normSet ["Python", "react"])
      (AIRecommendationService.normSet ["api"]) ["python", "sql"] "Backend Dev"
      "Work with python and api design" 50 _ _ _ _ rfl rfl rfl rfl
      (by decide) (by decide)).2.2.2.2.1
      (by decide)

namespace AIRecommendationService

/-- If no resume keyword occurs in the description, the keyword sub-score is
zero. -/
theorem keyword_match_zero (rk : Finset String) (d : String)
    (hk : ∀ kw ∈ rk, PyStr.pyContains d kw = false) :
    calculate_keyword_match rk d = 0 := by
  unfold calculate_keyword_match
  split
  · rfl
  · have hfilter : rk.filter (fun kw => PyStr.pyContains d kw) = ∅ := by
      refine Finset.filter_eq_empty_iff.mpr ?_
      intro kw hkw
      simp [hk kw hkw]
    rw [hfilter]
    simp

end AIRecommendationService

/-- C9 (corrected): for a listing with zero (even fuzzy) skill overlap and
none of the resume keywords in the description, `match_jobs` emits the
explicit no-match reason, but the score is the truncated 0.15-weighted
text-similarity sub-score — zero exactly when that sub-score is zero, and
possibly positive (up to 15) otherwise. -/
theorem c9_no_overlap_reason_and_score
    (resume_skills resume_keywords : Finset String) (required_skills : List String)
    (title description : String) (cosine_score : ℚ)
    (hs : AIRecommendationService.calculate_skill_match resume_skills
      (AIRecommendationService.effective_job_skills required_skills title description) = 0)
    (hk : ∀ kw ∈ resume_keywords,
      PyStr.pyContains (PyStr.pyLower description) kw = false)
    (hc0 : 0 ≤ cosine_score) (hc100 : cosine_score ≤ 100) :
    (AIRecommendationService.match_job_score resume_skills resume_keywords required_skills
        title description cosine_score).2 = "No skills match found"
    ∧ (AIRecommendationService.match_job_score resume_skills resume_keywords required_skills
        title description cosine_score).1 =
      AIRecommendationService.pyInt (cosine_score * 0.15)
    ∧ (AIRecommendationService.match_job_score resume_skills resume_keywords required_skills
        title description cosine_score).1 ≤ 15
    ∧ (cosine_score = 0 →
        (AIRecommendationService.match_job_score resume_skills resume_keywords required_skills
          title description cosine_score).1 = 0) := by
  have hkz : AIRecommendationService.calculate_keyword_match resume_keywords
      (PyStr.pyLower description) = 0 :=
    AIRecommendationService.keyword_match_zero _ _ hk
  have hinter : resume_skills ∩
      AIRecommendationService.effective_job_skills required_skills title description = ∅ :=
    AIRecommendationService.inter_empty_of_skill_match_zero _ _ hs
  have hreason : (AIRecommendationService.match_job_score resume_skills resume_keywords
      required_skills title description cosine_score).2 =
      AIRecommendationService.generate_match_reason
        (resume_skills ∩
          AIRecommendationService.effective_job_skills required_skills title description)
        (AIRecommendationService.effective_job_skills required_skills title description) := rfl
  have hscore : (AIRecommendationService.match_job_score resume_skills resume_keywords
      required_skills title description cosine_score).1 =
      max (AIRecommendationService.pyInt (min
        (if 0 < AIRecommendationService.calculate_skill_match resume_skills
              (AIRecommendationService.effective_job_skills required_skills title description) ∨
            0 < AIRecommendationService.calculate_keyword_match resume_keywords
              (PyStr.pyLower description) then
          max (AIRecommendationService.calculate_skill_match resume_skills
                (AIRecommendationService.effective_job_skills required_skills title description)
                * 0.6 +
              AIRecommendationService.calculate_keyword_match resume_keywords
                (PyStr.pyLower description) * 0.25 +
              cosine_score * 0.15) 10
        else
          AIRecommendationService.calculate_skill_match resume_skills
              (AIRecommendationService.effective_job_skills required_skills title description)
              * 0.6 +
            AIRecommendationService.calculate_keyword_match resume_keywords
              (PyStr.pyLower description) * 0.25 +
            cosine_score * 0.15) 100)) 0 := rfl
  rw [hs, hkz] at hscore
  rw [if_neg (by norm_num)] at hscore
  have hbase : (0 : ℚ) * 0.6 + 0 * 0.25 + cosine_score * 0.15 = cosine_score * 0.15 := by ring
  rw [hbase] at hscore
  have hmin : min (cosine_score * 0.15) 100 = cosine_score * 0.15 :=
    min_eq_left (by nlinarith)
  rw [hmin] at hscore
  have hmax : max (AIRecommendationService.pyInt (cosine_score * 0.15)) 0 =
      AIRecommendationService.pyInt (cosine_score * 0.15) :=
    max_eq_left (AIRecommendationService.pyInt_nonneg (by positivity))
  rw [hmax] at hscore
  refine ⟨?_, hscore, ?_, ?_⟩
  · rw [hreason, hinter]
    simp [AIRecommendationService.generate_match_reason]
  · rw [hscore]
    exact AIRecommendationService.pyInt_le_of_le (by positivity) (by nlinarith)
  · intro hzero
    rw [hscore, hzero]
    norm_num [AIRecommendationService.pyInt]

/-- Counterexample for C9 as stated: a listing with zero skill overlap and no
keyword overlap whose text-similarity sub-score is 40 receives match_score 6,
not 0 (the no-match reason is still emitted). -/
theorem c9_counterexample_score_not_zero :
    (AIRecommendationService.match_job_score
        (AIRecommendationService.normSet ["python"])
        (AIRecommendationService.normSet ["django"])
        [] "team" "collaboration role" 40).1 = 6
    ∧ ((6 : ℤ) ≠ 0)
    ∧ (AIRecommendationService.match_job_score
        (AIRecommendationService.normSet ["python"])
        (AIRecommendationService.normSet ["django"])
        [] "team" "collaboration role" 40).2 = "No skills match found" := by
  have hjs : AIRecommendationService.effective_job_skills [] "team" "collaboration role" = ∅ := by
    decide
  have hs : AIRecommendationService.calculate_skill_match
      (AIRecommendationService.normSet ["python"])
      (AIRecommendationService.effective_job_skills [] "team" "collaboration role") = 0 := by
    rw [hjs]
    simp [AIRecommendationService.calculate_skill_match]
  have hk : ∀ kw ∈ AIRecommendationService.normSet ["django"],
      PyStr.pyContains (PyStr.pyLower "collaboration role") kw = false := by decide
  have hkz := AIRecommendationService.keyword_match_zero _ _ hk
  have hscore := AIRecommendationService.match_job_score_fst_eq
    (AIRecommendationService.normSet ["python"]) (AIRecommendationService.normSet ["django"])
    [] "team" "collaboration role" 40
  rw [hs, hkz, if_neg (by norm_num)] at hscore
  have harith : (0 : ℚ) * 0.6 + 0 * 0.25 + 40 * 0.15 = 6 := by norm_num
  rw [harith] at hscore
  have hmin : min (6 : ℚ) 100 = 6 := by norm_num
  rw [hmin] at hscore
  have hpy : AIRecommendationService.pyInt 6 = 6 := by
    unfold AIRecommendationService.pyInt
    rw [if_neg (by norm_num)]
    have : ((6 : ℤ) : ℚ) = (6 : ℚ) := by norm_num
    rw [← this, Int.floor_intCast]
  rw [hpy] at hscore
  refine ⟨by rw [hscore]; decide, by decide, ?_⟩
  have hreason := AIRecommendationService.match_job_score_snd_eq
    (AIRecommendationService.normSet ["python"]) (AIRecommendationService.normSet ["django"])
    [] "team" "collaboration role" 40
  rw [hreason, hjs]
  simp [AIRecommendationService.generate_match_reason]

/-- Witness for C9 (amended) at cosine sub-score 0: the score is 0 and the
no-match reason is emitted. -/
theorem c9_no_overlap_reason_and_score_witness :
    (AIRecommendationService.match_job_score
        (AIRecommendationService.normSet ["python"])
        (AIRecommendationService.normSet ["django"])
        [] "team" "collaboration role" 0).2 = "No skills match found"
    ∧ (AIRecommendationService.match_job_score
        (AIRecommendationService.normSet ["python"])
        (AIRecommendationService.normSet ["django"])
        [] "team" "collaboration role" 0).1 = 0 := by
  have h := c9_no_overlap_reason_and_score
    (AIRecommendationService.normSet ["python"])
    (AIRecommendationService.normSet ["django"])
    [] "team" "collaboration role" 0 (by decide) (by decide) (by decide) (by decide)
  exact ⟨h.1, h.2.2.2 rfl⟩

namespace ApifyJobsService

/-- Replacing every keyword by a variant with the same normalized token
leaves the dedup loop's output unchanged. -/
theorem normalizeKeywordsGo_congr :
    ∀ {ks1 ks2 : List String},
      List.Forall₂ (fun a b => normalizeCacheToken a = normalizeCacheToken b) ks1 ks2 →
      ∀ (seen : List String), normalizeKeywordsGo seen ks1 = normalizeKeywordsGo seen ks2 := by
  intro ks1 ks2 h
  induction h with
  | nil => intro seen; rfl
  | @cons a b l1 l2 hab _ ih =>
    intro seen
    simp only [normalizeKeywordsGo, hab]
    split
    · exact ih seen
    · rw [ih (normalizeCacheToken b :: seen)]

/-- Dropping a keyword whose normalized token is empty, already seen, or
already produced by an earlier keyword leaves the dedup loop's output
unchanged. -/
theorem normalizeKeywordsGo_dup :
    ∀ (pre : List String) (x : String) (post seen : List String),
      (normalizeCacheToken x = "" ∨ normalizeCacheToken x ∈ seen ∨
        ∃ p ∈ pre, normalizeCacheToken p = normalizeCacheToken x) →
      normalizeKeywordsGo seen (pre ++ x :: post) = normalizeKeywordsGo seen (pre ++ post)
  | [], x, post, seen, h => by
    have hcond : normalizeCacheToken x = "" ∨ normalizeCacheToken x ∈ seen := by
      rcases h with h | h | ⟨p, hp, _⟩
      · exact Or.inl h
      · exact Or.inr h
      · exact absurd hp (List.not_mem_nil p)
    simp only [List.nil_append, normalizeKeywordsGo]
    rw [if_pos (by simpa using hcond)]
  | p :: pre', x, post, seen, h => by
    simp only [List.cons_append, normalizeKeywordsGo]
    split
    case isTrue hcond =>
      refine normalizeKeywordsGo_dup pre' x post seen ?_
      rcases h with h | h | ⟨q, hq, hqx⟩
      · exact Or.inl h
      · exact Or.inr (Or.inl h)
      · rcases List.mem_cons.mp hq with rfl | hq'
        · have : normalizeCacheToken q = "" ∨ normalizeCacheToken q ∈ seen := by
            simpa using hcond
          rcases this with h0 | h0
          · exact Or.inl (hqx ▸ h0)
          · exact Or.inr (Or.inl (hqx ▸ h0))
        · exact Or.inr (Or.inr ⟨q, hq', hqx⟩)
    case isFalse hcond =>
      have harg : normalizeCacheToken x = "" ∨
          normalizeCacheToken x ∈ (normalizeCacheToken p :: seen) ∨
          ∃ q ∈ pre', normalizeCacheToken q = normalizeCacheToken x := by
        rcases h with h | h | ⟨q, hq, hqx⟩
        · exact Or.inl h
        · exact Or.inr (Or.inl (List.mem_cons_of_mem _ h))
        · rcases List.mem_cons.mp hq with rfl | hq'
          · exact Or.inr (Or.inl (hqx ▸ List.mem_cons_self _ _))
          · exact Or.inr (Or.inr ⟨q, hq', hqx⟩)
      exact congrArg (List.cons (normalizeCacheToken p))
        (normalizeKeywordsGo_dup pre' x post (normalizeCacheToken p :: seen) harg)

end ApifyJobsService

/-- C5: the cache key is a pure function of the sanitized lowercased location
and the first 16 deduplicated normalized keywords; keyword lists that agree
after normalization/dedup, lists that differ pointwise only by
case/whitespace variants, and lists with an inserted duplicate variant of an
earlier keyword all produce the identical key string. -/
theorem c5_cache_key_invariance (loc : String) :
    (∀ ks : List String, ApifyJobsService.build_cache_key ks loc =
      ApifyJobsService.serializeCachePayload
        (PyStr.pyLower (ApifyJobsService.sanitize_location loc "India"))
        ((ApifyJobsService.normalize_keywords_for_cache ks).take 16))
    ∧ (∀ ks1 ks2 : List String,
        ApifyJobsService.normalize_keywords_for_cache ks1 =
          ApifyJobsService.normalize_keywords_for_cache ks2 →
        ApifyJobsService.build_cache_key ks1 loc = ApifyJobsService.build_cache_key ks2 loc)
    ∧ (∀ ks1 ks2 : List String,
        List.Forall₂ (fun a b =>
          ApifyJobsService.normalizeCacheToken a = ApifyJobsService.normalizeCacheToken b)
          ks1 ks2 →
        ApifyJobsService.build_cache_key ks1 loc = ApifyJobsService.build_cache_key ks2 loc)
    ∧ (∀ (pre : List String) (x : String) (post : List String),
        (∃ p ∈ pre,
          ApifyJobsService.normalizeCacheToken p = ApifyJobsService.normalizeCacheToken x) →
        ApifyJobsService.build_cache_key (pre ++ x :: post) loc =
          ApifyJobsService.build_cache_key (pre ++ post) loc) := by
  have hkey : ∀ ks1 ks2 : List String,
      ApifyJobsService.normalize_keywords_for_cache ks1 =
        ApifyJobsService.normalize_keywords_for_cache ks2 →
      ApifyJobsService.build_cache_key ks1 loc = ApifyJobsService.build_cache_key ks2 loc := by
    intro ks1 ks2 h
    unfold ApifyJobsService.build_cache_key
    rw [h]
  refine ⟨fun ks => rfl, hkey, ?_, ?_⟩
  · intro ks1 ks2 h
    exact hkey ks1 ks2 (ApifyJobsService.normalizeKeywordsGo_congr h [])
  · intro pre x post h
    exact hkey _ _ (ApifyJobsService.normalizeKeywordsGo_dup pre x post []
      (Or.inr (Or.inr h)))

/-- Witness for C5: reordering whitespace/case variants and repeating a
duplicate variant of an earlier keyword leaves the concrete key unchanged. -/
theorem c5_cache_key_invariance_witness :
    ApifyJobsService.build_cache_key ["Python", " JAVA "] "Pune" =
      ApifyJobsService.build_cache_key ["python ", "java"] "Pune"
    ∧ ApifyJobsService.build_cache_key (["Python"] ++ " PYTHON " :: ["java"]) "Pune" =
      ApifyJobsService.build_cache_key (["Python"] ++ ["java"]) "Pune" := by
  constructor
  · exact (c5_cache_key_invariance "Pune").2.2.1 ["Python", " JAVA "] ["python ", "java"]
      (List.Forall₂.cons (by decide) (List.Forall₂.cons (by decide) List.Forall₂.nil))
  · exact (c5_cache_key_invariance "Pune").2.2.2 ["Python"] " PYTHON " ["java"]
      ⟨"Python", by decide, by decide⟩

namespace PyStr

/-- `str.replace` is the identity when the pattern does not occur. -/
theorem replaceFuel_of_no_occurrence (p r : List Char) (hp : p ≠ []) :
    ∀ (fuel : Nat) (s : List Char), ¬(p <:+: s) → replaceFuel p r fuel s = s := by
  intro fuel
  induction fuel with
  | zero => intro s _; cases s <;> rfl
  | succ f ih =>
    intro s hs
    cases s with
    | nil => rfl
    | cons c rest =>
      have hpre : p.isPrefixOf (c :: rest) = false := by
        by_contra hcon
        have : p.isPrefixOf (c :: rest) = true := by
          cases h : p.isPrefixOf (c :: rest)
          · exact absurd h hcon
          · rfl
        exact hs (List.isPrefixOf_iff_prefix.mp this).isInfix
      simp only [replaceFuel, hpre, Bool.false_and, Bool.false_eq_true, if_false]
      rw [ih rest (fun hinf => hs (hinf.trans (List.infix_cons (List.infix_refl rest))))]

/-- `s.replace(p, r)` is the identity when `p` does not occur in `s`. -/
theorem pyReplace_of_no_occurrence (s p r : String) (hp : p.toList ≠ [])
    (h : ¬(p.toList <:+: s.toList)) : pyReplace s p r = s := by
  unfold pyReplace replaceCh
  rw [replaceFuel_of_no_occurrence p.toList r.toList hp _ s.toList h]
  exact String.ext rfl

/-- A string with a non-empty prefix string is non-empty. -/
theorem ne_empty_of_startsWith (s p : String) (hp : p.toList ≠ [])
    (h : pyStartsWith s p = true) : s ≠ "" := by
  intro hs
  subst hs
  have := List.isPrefixOf_iff_prefix.mp h
  have hnil : p.toList = [] := List.prefix_nil.mp this
  exact hp hnil

end PyStr

namespace ApifyJobsService

/-- `firstNonEmptyStr` of a map with only empty results is empty. -/
theorem firstNonEmptyStr_map_empty {α : Type} (f : α → String) :
    ∀ l : List α, (∀ x ∈ l, f x = "") → firstNonEmptyStr (l.map f) = ""
  | [], _ => rfl
  | x :: rest, h => by
    simp only [List.map_cons, firstNonEmptyStr]
    rw [if_pos (h x (List.mem_cons_self x rest))]
    exact firstNonEmptyStr_map_empty f rest (fun y hy => h y (List.mem_cons_of_mem x hy))

/-- Non-empty left part keeps a string append non-empty. -/
theorem append_ne_empty_left (a b : String) (ha : a ≠ "") : a ++ b ≠ "" := by
  intro h
  apply ha
  apply String.ext
  have hdata : a.data ++ b.data = [] := congrArg String.data h
  exact List.append_eq_nil.mp hdata |>.1

/-- The synthesized platform search URL is never empty. -/
theorem build_platform_search_url_ne_empty (platform title location : String) :
    build_platform_search_url platform title location ≠ "" := by
  unfold build_platform_search_url
  by_cases hp1 : platform = "linkedin"
  · rw [if_pos hp1]
    repeat apply append_ne_empty_left
    decide
  rw [if_neg hp1]
  by_cases hp2 : platform = "naukri"
  · rw [if_pos hp2]
    repeat apply append_ne_empty_left
    decide
  rw [if_neg hp2]
  by_cases hp3 : platform = "internshala"
  · rw [if_pos hp3]
    repeat apply append_ne_empty_left
    decide
  rw [if_neg hp3]
  repeat apply append_ne_empty_left
  decide

end ApifyJobsService

/-- C8 (corrected): an absolute URL string with no surrounding whitespace and
no occurrence of the ampersand artifact `amp;` is returned unchanged by
`_normalize_external_url`; and a raw record none of whose candidate fields
yields a recoverable URL receives the non-empty synthesized platform search
URL from `_extract_best_job_url`. -/
theorem c8_url_recovery
    (s : String) (h1 : PyStr.pyStrip s = s)
    (h2 : ¬("amp;".toList <:+: s.toList))
    (h3 : PyStr.pyStartsWith s "http://" = true ∨ PyStr.pyStartsWith s "https://" = true)
    (job : UDict) (platform default_location : String)
    (hcand : ∀ k ∈ ApifyJobsService.candidateUrlKeys,
      ApifyJobsService.normalize_external_url (UVal.pyGet job k) = "") :
    ApifyJobsService.normalize_external_url (.str s) = s
    ∧ ApifyJobsService.extract_best_job_url job platform default_location =
        ApifyJobsService.build_platform_search_url platform
          (UVal.pyStr (UVal.pyOr (UVal.pyGet job "title") (.str "software engineer")))
          (UVal.pyStr (UVal.pyOr (UVal.pyGet job "location")
            (UVal.pyOr (.str default_location) (.str "India"))))
    ∧ ApifyJobsService.extract_best_job_url job platform default_location ≠ "" := by
  have hnorm : ApifyJobsService.normalize_external_url (.str s) =
      ApifyJobsService.normalize_url_text s := rfl
  have hr1 : PyStr.pyReplace s "?amp;" "?" = s :=
    PyStr.pyReplace_of_no_occurrence s "?amp;" "?" (by decide)
      (fun hinf => h2 ((by decide : "amp;".toList <:+: "?amp;".toList).trans hinf))
  have hr2 : PyStr.pyReplace s "&amp;" "&" = s :=
    PyStr.pyReplace_of_no_occurrence s "&amp;" "&" (by decide)
      (fun hinf => h2 ((by decide : "amp;".toList <:+: "&amp;".toList).trans hinf))
  have hr3 : PyStr.pyReplace s "amp;" "" = s :=
    PyStr.pyReplace_of_no_occurrence s "amp;" "" (by decide) h2
  have hne : s ≠ "" := by
    rcases h3 with h | h
    · exact PyStr.ne_empty_of_startsWith s "http://" (by decide) h
    · exact PyStr.ne_empty_of_startsWith s "https://" (by decide) h
  have hcond : (PyStr.pyStartsWith s "http://" || PyStr.pyStartsWith s "https://") = true := by
    rcases h3 with h | h <;> simp [h]
  have hid : ApifyJobsService.normalize_url_text s = s := by
    unfold ApifyJobsService.normalize_url_text
    simp only [h1, hr1, hr2, hr3]
    rw [if_neg hne, if_pos hcond]
  have hempty : ApifyJobsService.firstNonEmptyStr
      (ApifyJobsService.candidateUrlKeys.map
        (fun k => ApifyJobsService.normalize_external_url (UVal.pyGet job k))) = "" :=
    ApifyJobsService.firstNonEmptyStr_map_empty _ _ hcand
  have hfallback : ApifyJobsService.extract_best_job_url job platform default_location =
      ApifyJobsService.build_platform_search_url platform
        (UVal.pyStr (UVal.pyOr (UVal.pyGet job "title") (.str "software engineer")))
        (UVal.pyStr (UVal.pyOr (UVal.pyGet job "location")
          (UVal.pyOr (.str default_location) (.str "India")))) := by
    unfold ApifyJobsService.extract_best_job_url
    rw [hempty]
    simp
  refine ⟨hnorm.trans hid, hfallback, ?_⟩
  rw [hfallback]
  exact ApifyJobsService.build_platform_search_url_ne_empty _ _ _

/-- Counterexample for C8 as stated: an already-absolute URL containing the
`amp;` artifact is modified (the artifact repair rewrites it), so
normalization of an absolute URL is not always the identity. -/
theorem c8_counterexample_not_identity :
    ApifyJobsService.normalize_external_url (.str "https://a.com/x?amp;y") =
      "https://a.com/x?y"
    ∧ ("https://a.com/x?y" : String) ≠ "https://a.com/x?amp;y" := by
  exact ⟨by decide, by decide⟩

/-- Witness for C8 (amended): a clean absolute URL passes through unchanged,
and a record with no URL-bearing field gets the non-empty synthesized
LinkedIn search URL. -/
theorem c8_url_recovery_witness :
    ApifyJobsService.normalize_external_url (.str "https://ok.example.com/jobs?id=1") =
      "https://ok.example.com/jobs?id=1"
    ∧ ApifyJobsService.extract_best_job_url (UDict.ofList [("title", .str "Dev")])
        "linkedin" "Pune" ≠ "" := by
  have h := c8_url_recovery "https://ok.example.com/jobs?id=1" (by decide) (by decide)
    (Or.inr (by decide)) (UDict.ofList [("title", .str "Dev")]) "linkedin" "Pune"
    (by decide)
  exact ⟨h.1, h.2.2⟩

/-- C6 (corrected): the Source Adapter search operations return a (possibly
empty) listing list without raising when the backend yields zero results, but
they also catch hard failures (network/auth errors from the actor call) and
return the jobs collected so far — an empty list — instead of propagating the
exception. -/
theorem c6_adapter_error_swallowing (location : String)
    (callResult : Except String UDict) (dataset : List UDict)
    (keywords : List String) (fetchResult : Except String (List UDict)) :
    (∃ jobs, ApifyJobScraper.search_linkedin_jobs location callResult dataset = .ok jobs)
    ∧ (∀ run, callResult = .ok run → dataset = [] →
        ApifyJobScraper.search_linkedin_jobs location callResult dataset = .ok [])
    ∧ (∀ e, callResult = .error e →
        ApifyJobScraper.search_linkedin_jobs location callResult dataset = .ok [])
    ∧ (∃ jobs, ApifyJobsService.fetch_linkedin_jobs keywords fetchResult location = .ok jobs)
    ∧ (∀ e, fetchResult = .error e →
        ApifyJobsService.fetch_linkedin_jobs keywords fetchResult location = .ok [])
    ∧ (fetchResult = .ok [] →
        ApifyJobsService.fetch_linkedin_jobs keywords fetchResult location = .ok []) := by
  refine ⟨⟨_, rfl⟩, ?_, ?_, ?_, ?_, ?_⟩
  · intro run hr hd
    subst hr hd
    unfold ApifyJobScraper.search_linkedin_jobs
    by_cases ht : (UVal.pyGet run "defaultDatasetId").truthy
    · simp [ht]
    · simp [ht]
  · intro e he
    subst he
    rfl
  · unfold ApifyJobsService.fetch_linkedin_jobs
    split
    · exact ⟨[], rfl⟩
    · exact ⟨_, rfl⟩
  · intro e he
    subst he
    unfold ApifyJobsService.fetch_linkedin_jobs
    split
    · rfl
    · rfl
  · intro he
    subst he
    unfold ApifyJobsService.fetch_linkedin_jobs
    split
    · rfl
    · rfl

/-- Counterexample for C6 as stated: an authentication failure from the actor
call is not propagated — `search_linkedin_jobs` returns normally with an
empty job list. -/
theorem c6_counterexample_auth_error_swallowed :
    ApifyJobScraper.search_linkedin_jobs "India"
      (.error "401 Client Error: Unauthorized for url https://api.apify.com") [] =
      .ok ([] : List ApifyJobScraper.ScrapedJob) := by
  rfl

/-- Witness for C6 (amended): zero backend results give `ok []`, and a
network error from the backend also gives `ok []`. -/
theorem c6_adapter_error_swallowing_witness :
    ApifyJobScraper.search_linkedin_jobs "India"
      (.ok (UDict.ofList [("defaultDatasetId", .str "ds1")])) [] =
      .ok ([] : List ApifyJobScraper.ScrapedJob)
    ∧ ApifyJobsService.fetch_linkedin_jobs ["python"] (.error "ConnectionError") "India" =
      .ok ([] : List ApifyJobsService.FetchedJob) := by
  have h := c6_adapter_error_swallowing "India"
    (.ok (UDict.ofList [("defaultDatasetId", .str "ds1")])) []
    ["python"] (.error "ConnectionError")
  exact ⟨h.2.1 (UDict.ofList [("defaultDatasetId", .str "ds1")]) rfl rfl,
         h.2.2.2.2.1 "ConnectionError" rfl⟩

namespace ApifyJobsService

/-- Updating a present key rewrites its binding in place. -/
theorem lookup_map_update (k : String) (e : CacheEntry) :
    ∀ entries : List (String × CacheEntry),
      (entries.lookup k).isSome = true →
      ((entries.map (fun kv => if kv.1 = k then (k, e) else kv)).lookup k) = some e
  | [], h => by simp [List.lookup] at h
  | (k1, e1) :: rest, h => by
    by_cases hk : k1 = k
    · subst hk
      simp only [List.map_cons, if_pos (show (k1, e1).1 = k1 from rfl)]
      simp [List.lookup]
    · have hbeq : (k == k1) = false := beq_eq_false_iff_ne.mpr (fun he => hk he.symm)
      simp only [List.lookup, hbeq] at h
      simp only [List.map_cons, if_neg (show ¬((k1, e1).1 = k) from hk)]
      simp only [List.lookup, hbeq]
      exact lookup_map_update k e rest h

/-- `entries[cache_key] = entry` makes the entry retrievable under the key. -/
theorem updateAssoc_lookup (entries : List (String × CacheEntry)) (k : String)
    (e : CacheEntry) : (updateAssoc entries k e).lookup k = some e := by
  unfold updateAssoc
  split
  case isTrue h => exact lookup_map_update k e entries h
  case isFalse h =>
    rw [List.lookup_append]
    have hnone : entries.lookup k = Option.none := by
      cases hl : entries.lookup k
      · rfl
      · rw [hl] at h
        exact absurd rfl h
    rw [hnone]
    simp [List.lookup]

/-- A non-empty job list written over a parsable cache file lands under the
given key, with the latest-key pointer set to it. -/
theorem save_cached_jobs_write (jobs : List MappedJob) (cache_key : String)
    (keywords : List String) (location : String) (now : ℤ) (cf : CacheFile)
    (hjobs : jobs ≠ []) (hcf : cf ≠ .corrupt) :
    ∃ entries, save_cached_jobs jobs cache_key keywords location now cf = .v2 entries cache_key
      ∧ entries.lookup cache_key = some
          { created_at := now
            jobs := jobs
            keywords := normalize_keywords_for_cache keywords
            location := sanitize_location location "India" } := by
  unfold save_cached_jobs
  rw [if_neg (by simpa [List.isEmpty_iff] using hjobs)]
  match cf with
  | .corrupt => exact absurd rfl hcf
  | .missing => exact ⟨_, rfl, by simp [List.lookup]⟩
  | .nonDict => exact ⟨_, rfl, by simp [List.lookup]⟩
  | .legacy c j => exact ⟨_, rfl, by simp [List.lookup]⟩
  | .v2 entries lk => exact ⟨_, rfl, updateAssoc_lookup entries cache_key _⟩

/-- An empty job list is never written. -/
theorem save_cached_jobs_empty (cache_key : String) (keywords : List String)
    (location : String) (now : ℤ) (cf : CacheFile) :
    save_cached_jobs [] cache_key keywords location now cf = cf := rfl

end ApifyJobsService

/-- C4: the result cache is written only when an aggregation attempt produces
a non-empty deduplicated listing set; every such write stores the entry under
the query's cache key and points `latest_key` at that key; an attempt that
yields zero listings leaves the cache untouched. -/
theorem c4_cache_write_policy (keywords : List String) (location0 : String)
    (scrapeOutcome : Except String (List (String × List UDict)))
    (cf : ApifyJobsService.CacheFile) (now fresh_s fb_s : ℤ) :
    let location := ApifyJobsService.sanitize_location location0 "India"
    let cache_key := ApifyJobsService.build_cache_key keywords location
    let deduped := ApifyJobsService.dedupJobs
      (ApifyJobsService.aggregate_scraped_jobs scrapeOutcome location)
    let result := ApifyJobsService.fetch_jobs_from_apify keywords location0 scrapeOutcome
      cf now fresh_s fb_s
    (result.2 ≠ cf →
      (ApifyJobsService.load_cached_jobs cache_key fresh_s now cf = [] ∧ deduped ≠ []))
    ∧ (deduped = [] → result.2 = cf)
    ∧ (ApifyJobsService.load_cached_jobs cache_key fresh_s now cf = [] → deduped ≠ [] →
        cf ≠ .corrupt →
        ∃ entries, result.2 = .v2 entries cache_key ∧
          entries.lookup cache_key = some
            { created_at := now
              jobs := deduped
              keywords := ApifyJobsService.normalize_keywords_for_cache keywords
              location := ApifyJobsService.sanitize_location location "India" }) := by
  intro location cache_key deduped result
  by_cases hfresh : ApifyJobsService.load_cached_jobs cache_key fresh_s now cf = []
  · by_cases hded : deduped = []
    · have hres : result.2 = cf := by
        show (ApifyJobsService.fetch_jobs_from_apify keywords location0 scrapeOutcome
          cf now fresh_s fb_s).2 = cf
        unfold ApifyJobsService.fetch_jobs_from_apify
        dsimp only
        rw [if_neg (by simp [hfresh])]
        rw [if_neg (by simpa [List.isEmpty_iff] using hded)]
        split
        · rfl
        split
        · rfl
        · rfl
      exact ⟨fun hne => absurd hres hne, fun _ => hres, fun _ hd _ => absurd hded hd⟩
    · have hres : result = (deduped,
          ApifyJobsService.save_cached_jobs deduped cache_key keywords location now cf) := by
        show ApifyJobsService.fetch_jobs_from_apify keywords location0 scrapeOutcome
          cf now fresh_s fb_s = _
        unfold ApifyJobsService.fetch_jobs_from_apify
        dsimp only
        rw [if_neg (by simp [hfresh])]
        rw [if_pos (by simpa [List.isEmpty_iff] using hded)]
      refine ⟨fun _ => ⟨hfresh, hded⟩, fun hd => absurd hd hded, fun _ _ hcf => ?_⟩
      obtain ⟨entries, he1, he2⟩ := ApifyJobsService.save_cached_jobs_write deduped cache_key
        keywords location now cf hded hcf
      refine ⟨entries, ?_, he2⟩
      rw [show result.2 = ApifyJobsService.save_cached_jobs deduped cache_key keywords
        location now cf from congrArg Prod.snd hres]
      exact he1
  · have hres : result = (ApifyJobsService.load_cached_jobs cache_key fresh_s now cf, cf) := by
      show ApifyJobsService.fetch_jobs_from_apify keywords location0 scrapeOutcome
        cf now fresh_s fb_s = _
      unfold ApifyJobsService.fetch_jobs_from_apify
      dsimp only
      rw [if_pos (by simpa [List.isEmpty_iff] using hfresh)]
    have hres2 : result.2 = cf := congrArg Prod.snd hres
    exact ⟨fun hne => absurd hres2 hne, fun _ => hres2, fun hf _ _ => absurd hf hfresh⟩

/-- Witness for C4: a live aggregation over an absent cache file writes the
deduplicated jobs under the query key and points `latest_key` at it. -/
theorem c4_cache_write_policy_witness :
    ApifyJobsService.load_cached_jobs
      (ApifyJobsService.build_cache_key ["python"]
        (ApifyJobsService.sanitize_location "Pune" "India"))
      600 100 .missing = []
    ∧ (∃ entries,
        (ApifyJobsService.fetch_jobs_from_apify ["python"] "Pune"
          (.ok [("linkedin", [UDict.ofList [("title", .str "Dev"),
            ("link", .str "https://x.co/1")]])])
          .missing 100 600 86400).2 =
          .v2 entries (ApifyJobsService.build_cache_key ["python"]
            (ApifyJobsService.sanitize_location "Pune" "India")) ∧
        entries.lookup (ApifyJobsService.build_cache_key ["python"]
            (ApifyJobsService.sanitize_location "Pune" "India")) = some
          { created_at := 100
            jobs := ApifyJobsService.dedupJobs
              (ApifyJobsService.aggregate_scraped_jobs
                (.ok [("linkedin", [UDict.ofList [("title", .str "Dev"),
                  ("link", .str "https://x.co/1")]])])
                (ApifyJobsService.sanitize_location "Pune" "India"))
            keywords := ApifyJobsService.normalize_keywords_for_cache ["python"]
            location := ApifyJobsService.sanitize_location
              (ApifyJobsService.sanitize_location "Pune" "India")
              "India" }) := by
  refine ⟨rfl, ?_⟩
  exact (c4_cache_write_policy ["python"] "Pune"
    (.ok [("linkedin", [UDict.ofList [("title", .str "Dev"),
      ("link", .str "https://x.co/1")]])])
    .missing 100 600 86400).2.2 rfl (by decide) (by decide)

/-- C10: in `enqueue` the duplicate-active lookup precedes the per-owner
capacity check: at (or over) the cap, an identical payload returns the
existing active job without error, a distinct payload raises the capacity
error, and in both cases the jobs map gains no entry (the state is the
TTL-swept map, a subset of the previous one). -/
theorem c10_dedup_precedes_capacity (cfg : ApifyRecommendationQueue.QueueConfig)
    (st : ApifyRecommendationQueue.QState) (now : ℤ) (fresh_id user_id : String)
    (p : ApifyRecommendationQueue.EnqueuePayload)
    (hcap : cfg.max_active_jobs_per_user ≤
      ApifyRecommendationQueue.active_jobs_for_user
        (ApifyRecommendationQueue.cleanup_expired cfg now st) user_id) :
    (∀ d, ApifyRecommendationQueue.find_duplicate_active_job
        (ApifyRecommendationQueue.cleanup_expired cfg now st) user_id
        (ApifyRecommendationQueue.hash_payload user_id p) = some d →
      ApifyRecommendationQueue.enqueue cfg now fresh_id user_id p st =
        (.ok (d, false), ApifyRecommendationQueue.cleanup_expired cfg now st)
      ∧ d ∈ st ∧ d.status.isActive = true ∧ d.user_id = user_id
      ∧ d.payload_hash = ApifyRecommendationQueue.hash_payload user_id p)
    ∧ (ApifyRecommendationQueue.find_duplicate_active_job
        (ApifyRecommendationQueue.cleanup_expired cfg now st) user_id
        (ApifyRecommendationQueue.hash_payload user_id p) = Option.none →
      ApifyRecommendationQueue.enqueue cfg now fresh_id user_id p st =
        (.error ("Too many active recommendation jobs (" ++
          toString cfg.max_active_jobs_per_user ++ " max). Please wait."),
         ApifyRecommendationQueue.cleanup_expired cfg now st))
    ∧ (∀ j ∈ ApifyRecommendationQueue.cleanup_expired cfg now st, j ∈ st) := by
  refine ⟨?_, ?_, fun j hj => List.mem_of_mem_filter hj⟩
  · intro d hdup
    have hpred := List.find?_some
      (show List.find? _ (ApifyRecommendationQueue.cleanup_expired cfg now st) = some d
        from hdup)
    have hmem : d ∈ st := List.mem_of_mem_filter (List.mem_of_find?_eq_some
      (show List.find? _ (ApifyRecommendationQueue.cleanup_expired cfg now st) = some d
        from hdup))
    simp only [Bool.and_eq_true, beq_iff_eq] at hpred
    refine ⟨?_, hmem, hpred.1.2, hpred.1.1, hpred.2⟩
    unfold ApifyRecommendationQueue.enqueue
    dsimp only
    rw [hdup]
  · intro hnone
    unfold ApifyRecommendationQueue.enqueue
    dsimp only
    rw [hnone]
    rw [if_pos hcap]

/-- A sample payload (python skills). -/
def samplePayloadPython : ApifyRecommendationQueue.EnqueuePayload :=
  ⟨"\x7b\"skills\":[\"python\"]\x7d", true, 10, "Pune"⟩

/-- A sample payload (java skills), distinct from `samplePayloadPython`. -/
def samplePayloadJava : ApifyRecommendationQueue.EnqueuePayload :=
  ⟨"\x7b\"skills\":[\"java\"]\x7d", true, 10, "Pune"⟩

/-- A queued sample job of owner `u1` carrying `samplePayloadPython`. -/
def sampleQueuedJob : ApifyRecommendationQueue.RecommendationJob where
  job_id := "a"
  user_id := "u1"
  payload_hash := ApifyRecommendationQueue.hash_payload "u1" samplePayloadPython
  resume_analysis := samplePayloadPython.resume_analysis
  use_apify := true
  top_n := 10
  location := "Pune"
  status := .queued
  created_at := 0

/-- Witness for C10 with cap 1 and one active job: the identical payload is
returned as a duplicate, the distinct payload hits the capacity error. -/
theorem c10_dedup_precedes_capacity_witness :
    (ApifyRecommendationQueue.enqueue ⟨900, 1⟩ 10 "b" "u1" samplePayloadPython
        [sampleQueuedJob]).1 = .ok (sampleQueuedJob, false)
    ∧ (ApifyRecommendationQueue.enqueue ⟨900, 1⟩ 10 "b" "u1" samplePayloadJava
        [sampleQueuedJob]).1 =
      .error "Too many active recommendation jobs (1 max). Please wait." := by
  constructor
  · have h := (c10_dedup_precedes_capacity ⟨900, 1⟩ [sampleQueuedJob] 10 "b" "u1"
      samplePayloadPython (by decide)).1 sampleQueuedJob (by decide)
    rw [h.1]
  · have h := (c10_dedup_precedes_capacity ⟨900, 1⟩ [sampleQueuedJob] 10 "b" "u1"
      samplePayloadJava (by decide)).2.1 (by decide)
    rw [h]
    rfl

namespace ApifyRecommendationQueue

/-- A found job satisfies the lookup predicate. -/
theorem findJob_id {st : QState} {jid : String} {j : RecommendationJob}
    (h : findJob st jid = some j) : j.job_id = jid := by
  have := List.find?_some (show List.find? _ st = some j from h)
  exact beq_iff_eq.mp this

/-- A found job is in the map. -/
theorem findJob_mem {st : QState} {jid : String} {j : RecommendationJob}
    (h : findJob st jid = some j) : j ∈ st :=
  List.mem_of_find?_eq_some (show List.find? _ st = some j from h)

/-- With unique job ids, any member carrying the looked-up id is the found
job. -/
theorem findJob_unique {st : QState} {jid : String} {j j' : RecommendationJob}
    (hinj : ∀ x ∈ st, ∀ y ∈ st, x.job_id = y.job_id → x = y)
    (h : findJob st jid = some j) (hmem : j' ∈ st) (hid : j'.job_id = jid) : j' = j :=
  hinj j' hmem j (findJob_mem h) (by rw [hid, findJob_id h])

/-- Lookup through a point update: the found job is the stored one, modified
exactly when it carries the updated id. -/
theorem findJob_update (st : QState) (jid0 : String)
    (f : RecommendationJob → RecommendationJob)
    (hf : ∀ x, (f x).job_id = x.job_id) (jid : String) :
    findJob (update_job st jid0 f) jid =
      (findJob st jid).map (fun j => if j.job_id == jid0 then f j else j) := by
  unfold findJob update_job
  rw [List.find?_map]
  have hpred : ((fun j : RecommendationJob => j.job_id == jid) ∘
      fun j => if j.job_id == jid0 then f j else j) =
      (fun j : RecommendationJob => j.job_id == jid) := by
    funext x
    simp only [Function.comp]
    by_cases hx : (x.job_id == jid0) = true
    · rw [if_pos hx, hf]
    · rw [if_neg hx]
  rw [hpred]

/-- `statusLE` is reflexive. -/
theorem statusLE_refl (a : JobStatus) : statusLE a a := Or.inl rfl

/-- `statusLE` is transitive. -/
theorem statusLE_trans {a b c : JobStatus} (h1 : statusLE a b) (h2 : statusLE b c) :
    statusLE a c := by
  rcases h1 with rfl | hq | ⟨hr, hterm⟩
  · exact h2
  · exact Or.inr (Or.inl hq)
  · rcases h2 with rfl | hq2 | ⟨hr2, hterm2⟩
    · exact Or.inr (Or.inr ⟨hr, hterm⟩)
    · rw [hq2] at hterm
      cases hterm
    · rw [hr2] at hterm
      cases hterm

/-- Point updates keep job ids, hence keep id-uniqueness. -/
theorem update_job_inj (jid0 : String) (f : RecommendationJob → RecommendationJob)
    {st : QState}
    (hf : ∀ x, (f x).job_id = x.job_id)
    (hinj : ∀ x ∈ st, ∀ y ∈ st, x.job_id = y.job_id → x = y) :
    ∀ x ∈ update_job st jid0 f, ∀ y ∈ update_job st jid0 f, x.job_id = y.job_id → x = y := by
  intro x hx y hy hxy
  obtain ⟨a, ha, rfl⟩ := List.mem_map.mp hx
  obtain ⟨b, hb, rfl⟩ := List.mem_map.mp hy
  have hid : ∀ z : RecommendationJob,
      (if z.job_id == jid0 then f z else z).job_id = z.job_id := by
    intro z
    by_cases hz : z.job_id == jid0
    · rw [if_pos hz, hf]
    · rw [if_neg hz]
  have hab : a = b := hinj a ha b hb (by rw [← hid a, ← hid b, hxy])
  rw [hab]

/-- Monotonicity through one point update whose effect on the stored statuses
respects the lifecycle order. -/
theorem statusLE_update {st : QState} {jid0 jid : String}
    {g : RecommendationJob → RecommendationJob} {j j' : RecommendationJob}
    (hinj : ∀ x ∈ st, ∀ y ∈ st, x.job_id = y.job_id → x = y)
    (hg : ∀ x, (g x).job_id = x.job_id)
    (hrel : ∀ x ∈ st, x.job_id = jid0 → statusLE x.status ((g x).status))
    (hj : findJob st jid = some j) (hj' : findJob (update_job st jid0 g) jid = some j') :
    statusLE j.status j'.status := by
  rw [findJob_update st jid0 g hg jid, hj] at hj'
  have hj'eq : j' = if j.job_id == jid0 then g j else j := (Option.some.inj hj').symm
  by_cases hcase : j.job_id == jid0
  · rw [hj'eq, if_pos hcase]
    exact hrel j (findJob_mem hj) (beq_iff_eq.mp hcase)
  · rw [hj'eq, if_neg hcase]
    exact statusLE_refl _
  
/-- Monotonicity when the new map is a sub-collection of the old one (TTL
sweeps and failed lookups). -/
theorem statusLE_subset {st st' : QState} {jid : String} {j j' : RecommendationJob}
    (hinj : ∀ x ∈ st, ∀ y ∈ st, x.job_id = y.job_id → x = y)
    (hsub : ∀ x ∈ st', x ∈ st)
    (hj : findJob st jid = some j) (hj' : findJob st' jid = some j') :
    statusLE j.status j'.status := by
  have : j' = j := findJob_unique hinj hj (hsub j' (findJob_mem hj')) (findJob_id hj')
  rw [this]
  exact statusLE_refl _

end ApifyRecommendationQueue

namespace ApifyRecommendationQueue

/-- `enqueue` leaves behind either just the swept map or the swept map with
one appended fresh job. -/
theorem enqueue_snd_cases (cfg : QueueConfig) (now : ℤ) (fresh_id user_id : String)
    (p : EnqueuePayload) (st : QState) :
    (enqueue cfg now fresh_id user_id p st).2 = cleanup_expired cfg now st ∨
    ∃ newJob : RecommendationJob, newJob.job_id = fresh_id ∧
      (enqueue cfg now fresh_id user_id p st).2 = cleanup_expired cfg now st ++ [newJob] := by
  unfold enqueue
  dsimp only
  split
  · exact Or.inl rfl
  split
  · exact Or.inl rfl
  · exact Or.inr ⟨_, rfl, rfl⟩

/-- `cancel_job` either leaves the map unchanged or cancels a found,
still-queued job in place. -/
theorem cancel_job_snd_cases (now : ℤ) (jid user_id : String) (st : QState) :
    (cancel_job now jid user_id st).2 = st ∨
    ∃ job0, findJob st jid = some job0 ∧ job0.status = .queued ∧
      (cancel_job now jid user_id st).2 = update_job st jid (cancelMark now) := by
  unfold cancel_job
  cases hfind : findJob st jid with
  | none => exact Or.inl rfl
  | some job0 =>
    by_cases h1 : job0.user_id ≠ user_id
    · exact Or.inl (by dsimp only; rw [if_pos h1])
    · by_cases h2 : job0.status ≠ JobStatus.queued
      · exact Or.inl (by dsimp only; rw [if_neg h1, if_pos h2])
      · exact Or.inr ⟨job0, rfl, not_not.mp h2,
          by dsimp only; rw [if_neg h1, if_neg h2]⟩

/-- `get_job` only sweeps the map. -/
theorem get_job_snd (cfg : QueueConfig) (now : ℤ) (jid user_id : String) (st : QState) :
    (get_job cfg now jid user_id st).2 = cleanup_expired cfg now st := by
  unfold get_job
  dsimp only
  split
  · rfl
  · split
    · rfl
    · rfl

/-- `_process_job` either leaves the map unchanged (missing or non-queued
job) or claims a queued job as running and then applies one id-preserving
terminal update that respects the lifecycle order on the running status. -/
theorem process_job_cases (jid0 : String) (now1 : ℤ)
    (outcome : Except String (List String)) (now2 : ℤ) (st : QState) :
    process_job jid0 now1 outcome now2 st = st ∨
    ∃ job0, findJob st jid0 = some job0 ∧ job0.status = .queued ∧
      (process_job jid0 now1 outcome now2 st =
        update_job st jid0 (runningMark now1) ∨
       ∃ g2 : RecommendationJob → RecommendationJob,
         (∀ x, (g2 x).job_id = x.job_id) ∧
         (∀ x, x.status = .running → statusLE x.status ((g2 x).status)) ∧
         process_job jid0 now1 outcome now2 st =
           update_job (update_job st jid0 (runningMark now1)) jid0 g2) := by
  unfold process_job
  cases hfind : findJob st jid0 with
  | none => exact Or.inl rfl
  | some job0 =>
    by_cases hq : job0.status ≠ JobStatus.queued
    · exact Or.inl (by dsimp only; rw [if_pos hq])
    · refine Or.inr ⟨job0, rfl, not_not.mp hq, ?_⟩
      dsimp only
      rw [if_neg hq]
      cases hfind2 : findJob (update_job st jid0 (runningMark now1)) jid0 with
      | none => exact Or.inl rfl
      | some current =>
        dsimp only
        by_cases hc : current.status = JobStatus.cancelled
        · refine Or.inr ⟨fun j => { j with completed_at := some now2 }, fun x => rfl,
            fun x _ => Or.inl rfl, ?_⟩
          rw [if_pos hc]
        · by_cases he : outcomeErrorText outcome ≠ ""
          · refine Or.inr ⟨fun j =>
              { j with status := .failed, error := outcomeErrorText outcome,
                       completed_at := some now2 }, fun x => rfl,
              fun x hx => Or.inr (Or.inr ⟨hx, rfl⟩), ?_⟩
            rw [if_neg hc, if_pos he]
          · refine Or.inr ⟨fun j =>
              { j with status := .succeeded,
                       recommendations := outcomeRecommendations outcome,
                       completed_at := some now2 }, fun x => rfl,
              fun x hx => Or.inr (Or.inr ⟨hx, rfl⟩), ?_⟩
            rw [if_neg hc, if_neg he]

end ApifyRecommendationQueue

/-- C3: the job lifecycle is monotone and one-directional.  `cancel_job`
cancels exactly an owner's still-`queued` job, refuses (returning `False` and
leaving the map unchanged) once the job is running or terminal, and every
operation on the jobs map — enqueue, cancel, owner lookup (with its TTL
sweep) and worker processing — moves each surviving job's status only along
`queued → running → {succeeded, failed, cancelled}`, never out of a terminal
status. -/
theorem c3_status_lifecycle_monotone (cfg : ApifyRecommendationQueue.QueueConfig) :
    (∀ (st : ApifyRecommendationQueue.QState) (now : ℤ) (jid user_id : String)
        (j : ApifyRecommendationQueue.RecommendationJob),
      ApifyRecommendationQueue.findJob st jid = some j → j.user_id = user_id →
      j.status = .queued →
      (ApifyRecommendationQueue.cancel_job now jid user_id st).1 = true ∧
      ∃ j', ApifyRecommendationQueue.findJob
          (ApifyRecommendationQueue.cancel_job now jid user_id st).2 jid = some j' ∧
        j'.status = .cancelled)
    ∧ (∀ (st : ApifyRecommendationQueue.QState) (now : ℤ) (jid user_id : String)
        (j : ApifyRecommendationQueue.RecommendationJob),
      ApifyRecommendationQueue.findJob st jid = some j → j.status ≠ .queued →
      ApifyRecommendationQueue.cancel_job now jid user_id st = (false, st))
    ∧ (∀ (op : ApifyRecommendationQueue.QOp) (st : ApifyRecommendationQueue.QState),
      ApifyRecommendationQueue.opFresh op st →
      (∀ x ∈ st, ∀ y ∈ st, x.job_id = y.job_id → x = y) →
      ∀ (jid : String) (j j' : ApifyRecommendationQueue.RecommendationJob),
        ApifyRecommendationQueue.findJob st jid = some j →
        ApifyRecommendationQueue.findJob (ApifyRecommendationQueue.applyOp cfg op st) jid =
          some j' →
        ApifyRecommendationQueue.statusLE j.status j'.status) := by
  refine ⟨?_, ?_, ?_⟩
  · -- cancel succeeds on an owned queued job
    intro st now jid user_id j hj hju hjq
    have hid : j.job_id = jid := ApifyRecommendationQueue.findJob_id hj
    unfold ApifyRecommendationQueue.cancel_job
    rw [hj]
    dsimp only
    rw [if_neg (by simp [hju]), if_neg (by simp [hjq])]
    refine ⟨rfl, ?_⟩
    dsimp only
    rw [ApifyRecommendationQueue.findJob_update st jid
      (ApifyRecommendationQueue.cancelMark now) (fun x => rfl) jid, hj]
    refine ⟨_, rfl, ?_⟩
    simp [ApifyRecommendationQueue.cancelMark, hid]
  · -- cancel refuses a non-queued job
    intro st now jid user_id j hj hjq
    unfold ApifyRecommendationQueue.cancel_job
    rw [hj]
    dsimp only
    by_cases hju : j.user_id ≠ user_id
    · rw [if_pos hju]
    · rw [if_neg hju, if_pos hjq]
  · -- monotonicity of every operation
    intro op st hfresh hinj jid j j' hj hj'
    cases op with
    | get now jid2 uid2 =>
      rw [show ApifyRecommendationQueue.applyOp cfg (.get now jid2 uid2) st =
        (ApifyRecommendationQueue.get_job cfg now jid2 uid2 st).2 from rfl,
        ApifyRecommendationQueue.get_job_snd] at hj'
      exact ApifyRecommendationQueue.statusLE_subset hinj
        (fun x hx => List.mem_of_mem_filter hx) hj hj'
    | cancel now jid2 uid2 =>
      rcases ApifyRecommendationQueue.cancel_job_snd_cases now jid2 uid2 st with heq |
        ⟨job0, hfind0, hq0, heq⟩
      · rw [show ApifyRecommendationQueue.applyOp cfg (.cancel now jid2 uid2) st =
          (ApifyRecommendationQueue.cancel_job now jid2 uid2 st).2 from rfl, heq, hj] at hj'
        rw [Option.some.inj hj']
        exact ApifyRecommendationQueue.statusLE_refl _
      · rw [show ApifyRecommendationQueue.applyOp cfg (.cancel now jid2 uid2) st =
          (ApifyRecommendationQueue.cancel_job now jid2 uid2 st).2 from rfl, heq] at hj'
        refine ApifyRecommendationQueue.statusLE_update
          (g := ApifyRecommendationQueue.cancelMark now)
          hinj (fun x => rfl) ?_ hj hj'
        intro x hx hxid
        have hx0 : x = job0 := ApifyRecommendationQueue.findJob_unique hinj hfind0 hx hxid
        rw [hx0, hq0]
        exact Or.inr (Or.inl rfl)
    | enq now fid uid2 p =>
      rcases ApifyRecommendationQueue.enqueue_snd_cases cfg now fid uid2 p st with heq |
        ⟨newJob, hidnew, heq⟩
      · rw [show ApifyRecommendationQueue.applyOp cfg (.enq now fid uid2 p) st =
          (ApifyRecommendationQueue.enqueue cfg now fid uid2 p st).2 from rfl, heq] at hj'
        exact ApifyRecommendationQueue.statusLE_subset hinj
          (fun x hx => List.mem_of_mem_filter hx) hj hj'
      · rw [show ApifyRecommendationQueue.applyOp cfg (.enq now fid uid2 p) st =
          (ApifyRecommendationQueue.enqueue cfg now fid uid2 p st).2 from rfl, heq] at hj'
        have hmem := ApifyRecommendationQueue.findJob_mem hj'
        rcases List.mem_append.mp hmem with hmem1 | hmem2
        · have : j' = j := ApifyRecommendationQueue.findJob_unique hinj hj
            (List.mem_of_mem_filter hmem1) (ApifyRecommendationQueue.findJob_id hj')
          rw [this]
          exact ApifyRecommendationQueue.statusLE_refl _
        · exfalso
          have hj'new : j' = newJob := List.mem_singleton.mp hmem2
          have hjid : j.job_id = jid := ApifyRecommendationQueue.findJob_id hj
          have hjid' : j'.job_id = jid := ApifyRecommendationQueue.findJob_id hj'
          refine hfresh j (ApifyRecommendationQueue.findJob_mem hj) ?_
          rw [hjid, ← hjid', hj'new, hidnew]
    | process jid2 now1 outcome now2 =>
      rcases ApifyRecommendationQueue.process_job_cases jid2 now1 outcome now2 st with heq |
        ⟨job0, hfind0, hq0, hcase⟩
      · rw [show ApifyRecommendationQueue.applyOp cfg (.process jid2 now1 outcome now2) st =
          ApifyRecommendationQueue.process_job jid2 now1 outcome now2 st from rfl, heq,
          hj] at hj'
        rw [Option.some.inj hj']
        exact ApifyRecommendationQueue.statusLE_refl _
      · have hrel1 : ∀ x ∈ st, x.job_id = jid2 →
            ApifyRecommendationQueue.statusLE x.status
              (ApifyRecommendationQueue.JobStatus.running) := by
          intro x hx hxid
          have hx0 : x = job0 := ApifyRecommendationQueue.findJob_unique hinj hfind0 hx hxid
          rw [hx0, hq0]
          exact Or.inr (Or.inl rfl)
        rcases hcase with heq | ⟨g2, hg2id, hg2rel, heq⟩
        · rw [show ApifyRecommendationQueue.applyOp cfg (.process jid2 now1 outcome now2) st =
            ApifyRecommendationQueue.process_job jid2 now1 outcome now2 st from rfl, heq] at hj'
          exact ApifyRecommendationQueue.statusLE_update
            (g := ApifyRecommendationQueue.runningMark now1)
            hinj (fun x => rfl) (fun x hx hxid => hrel1 x hx hxid) hj hj'
        · rw [show ApifyRecommendationQueue.applyOp cfg (.process jid2 now1 outcome now2) st =
            ApifyRecommendationQueue.process_job jid2 now1 outcome now2 st from rfl, heq] at hj'
          have hj1 : ApifyRecommendationQueue.findJob
              (ApifyRecommendationQueue.update_job st jid2
                (ApifyRecommendationQueue.runningMark now1)) jid =
              some (if j.job_id == jid2 then
                ApifyRecommendationQueue.runningMark now1 j else j) := by
            rw [ApifyRecommendationQueue.findJob_update st jid2
              (ApifyRecommendationQueue.runningMark now1) (fun x => rfl) jid, hj]
            rfl
          have step1 : ApifyRecommendationQueue.statusLE j.status
              (if j.job_id == jid2 then
                ApifyRecommendationQueue.runningMark now1 j else j).status := by
            refine ApifyRecommendationQueue.statusLE_update
              (g := ApifyRecommendationQueue.runningMark now1)
              hinj (fun x => rfl) ?_ hj hj1
            intro x hx hxid
            exact hrel1 x hx hxid
          have hinj1 := ApifyRecommendationQueue.update_job_inj jid2
            (ApifyRecommendationQueue.runningMark now1) (fun x => rfl) hinj
          have hrel2 : ∀ x ∈ ApifyRecommendationQueue.update_job st jid2
              (ApifyRecommendationQueue.runningMark now1),
              x.job_id = jid2 →
              ApifyRecommendationQueue.statusLE x.status ((g2 x).status) := by
            intro x hx hxid
            obtain ⟨a, ha, rfl⟩ := List.mem_map.mp hx
            by_cases hcond : (a.job_id == jid2) = true
            · rw [if_pos hcond] at hxid ⊢
              exact hg2rel _ rfl
            · rw [if_neg hcond] at hxid
              exact absurd (beq_iff_eq.mpr hxid) (by simpa using hcond)
          have step2 := ApifyRecommendationQueue.statusLE_update hinj1 hg2id hrel2 hj1 hj'
          exact ApifyRecommendationQueue.statusLE_trans step1 step2

/-- A terminal (succeeded) sample job. -/
def sampleSucceededJob : ApifyRecommendationQueue.RecommendationJob :=
  { sampleQueuedJob with status := .succeeded, started_at := some 1, completed_at := some 2 }

/-- `sampleQueuedJob` after its worker processed it successfully. -/
def sampleProcessedJob : ApifyRecommendationQueue.RecommendationJob :=
  { sampleQueuedJob with status := .succeeded, started_at := some 1, completed_at := some 2,
                         recommendations := ["r"] }

/-- Witness for C3: cancelling the queued sample job succeeds and marks it
cancelled; cancelling a succeeded job is refused without touching the map;
and worker processing moves the queued sample job forward in the lifecycle
order. -/
theorem c3_status_lifecycle_monotone_witness :
    (ApifyRecommendationQueue.cancel_job 5 "a" "u1" [sampleQueuedJob]).1 = true
    ∧ (∃ j', ApifyRecommendationQueue.findJob
        (ApifyRecommendationQueue.cancel_job 5 "a" "u1" [sampleQueuedJob]).2 "a" = some j' ∧
        j'.status = .cancelled)
    ∧ ApifyRecommendationQueue.cancel_job 6 "a" "u1" [sampleSucceededJob] =
        (false, [sampleSucceededJob])
    ∧ ApifyRecommendationQueue.statusLE sampleQueuedJob.status sampleProcessedJob.status := by
  have h := c3_status_lifecycle_monotone ⟨900, 2⟩
  have h1 := h.1 [sampleQueuedJob] 5 "a" "u1" sampleQueuedJob (by decide) (by decide) (by decide)
  have h2 := h.2.1 [sampleSucceededJob] 6 "a" "u1" sampleSucceededJob (by decide) (by decide)
  have h3 := h.2.2 (.process "a" 1 (.ok ["r"]) 2) [sampleQueuedJob] trivial (by decide)
    "a" sampleQueuedJob sampleProcessedJob (by decide) (by decide)
  exact ⟨h1.1, h1.2, h2, h3⟩

namespace ApifyRecommendationQueue

/-- `enqueue` creates a fresh queued job whenever the owner has no active
jobs at all in the swept map. -/
theorem enqueue_creates (cfg : QueueConfig) (now : ℤ) (fresh_id user_id : String)
    (p : EnqueuePayload) (st : QState)
    (hcap : 0 < cfg.max_active_jobs_per_user)
    (hnoactive : ∀ x ∈ st, (x.user_id == user_id && x.status.isActive) = false) :
    enqueue cfg now fresh_id user_id p st =
      (.ok ({ job_id := fresh_id, user_id := user_id,
              payload_hash := hash_payload user_id p,
              resume_analysis := p.resume_analysis, use_apify := p.use_apify,
              top_n := p.top_n,
              location := AIRecommendationService.sanitize_location p.location "India",
              status := .queued, created_at := now }, true),
       cleanup_expired cfg now st ++
         [{ job_id := fresh_id, user_id := user_id,
            payload_hash := hash_payload user_id p,
            resume_analysis := p.resume_analysis, use_apify := p.use_apify,
            top_n := p.top_n,
            location := AIRecommendationService.sanitize_location p.location "India",
            status := .queued, created_at := now }]) := by
  have hdup : find_duplicate_active_job (cleanup_expired cfg now st) user_id
      (hash_payload user_id p) = Option.none := by
    apply List.find?_eq_none.mpr
    intro x hx hcon
    have h1 : (x.user_id == user_id && x.status.isActive) = true :=
      ((Bool.and_eq_true _ _).mp hcon).1
    rw [hnoactive x (List.mem_of_mem_filter hx)] at h1
    cases h1
  have hactive : active_jobs_for_user (cleanup_expired cfg now st) user_id = 0 := by
    unfold active_jobs_for_user
    rw [List.length_eq_zero]
    apply List.filter_eq_nil_iff.mpr
    intro x hx
    rw [hnoactive x (List.mem_of_mem_filter hx)]
    simp
  unfold enqueue
  dsimp only
  rw [hdup]
  rw [if_neg (by rw [hactive]; omega)]

end ApifyRecommendationQueue

namespace ApifyRecommendationQueue

/-- A terminal status is not active. -/
theorem isActive_eq_false_of_isTerminal {s : JobStatus} (h : s.isTerminal = true) :
    s.isActive = false := by
  cases s <;> simp_all [JobStatus.isActive, JobStatus.isTerminal]

/-- Resubmitting while the single stored matching job is still active
(queued or running) returns that job unchanged and adds nothing. -/
theorem enqueue_dup_singleton (cfg : QueueConfig) (now : ℤ) (fid uid : String)
    (p : EnqueuePayload) (J : RecommendationJob)
    (hJu : J.user_id = uid) (hJq : J.status.isActive = true)
    (hJh : J.payload_hash = hash_payload uid p) :
    enqueue cfg now fid uid p [J] = (.ok (J, false), [J]) := by
  have hterm : J.status.isTerminal = false := by
    cases h : J.status <;> simp_all [JobStatus.isActive, JobStatus.isTerminal]
  have hclean : cleanup_expired cfg now [J] = [J] := by
    unfold cleanup_expired
    simp [List.filter, hterm]
  have hfind : find_duplicate_active_job [J] uid (hash_payload uid p) = some J := by
    unfold find_duplicate_active_job
    simp [List.find?, hJu, hJq, hJh]
  unfold enqueue
  dsimp only
  rw [hclean, hfind]

/-- Processing the single stored queued job drives it to a terminal status
(failed on a non-empty exception text, succeeded otherwise). -/
theorem process_job_singleton_queued (J : RecommendationJob) (fid : String)
    (now1 : ℤ) (outcome : Except String (List String)) (now2 : ℤ)
    (hid : J.job_id = fid) (hq : J.status = .queued) :
    ∃ Jt : RecommendationJob, process_job fid now1 outcome now2 [J] = [Jt]
      ∧ Jt.status.isTerminal = true ∧ Jt.job_id = J.job_id ∧ Jt.user_id = J.user_id := by
  have hfind : findJob [J] fid = some J := by
    unfold findJob
    simp [List.find?, hid]
  unfold process_job
  rw [hfind]
  dsimp only
  rw [if_neg (by simp [hq])]
  have hupd : update_job [J] fid (runningMark now1) = [runningMark now1 J] := by
    unfold update_job
    simp [hid]
  rw [hupd]
  have hfind2 : findJob [runningMark now1 J] fid = some (runningMark now1 J) := by
    unfold findJob
    simp [List.find?, runningMark, hid]
  rw [hfind2]
  dsimp only
  rw [if_neg (show ¬((runningMark now1 J).status = JobStatus.cancelled) from by
    simp [runningMark])]
  by_cases he : outcomeErrorText outcome ≠ ""
  · rw [if_pos he]
    refine ⟨({ J with
               status := .failed
               started_at := some now1
               error := outcomeErrorText outcome
               completed_at := some now2 }),
      ?_, rfl, rfl, rfl⟩
    unfold update_job
    simp [runningMark, hid]
  · rw [if_neg he]
    refine ⟨({ J with
               status := .succeeded
               started_at := some now1
               recommendations := outcomeRecommendations outcome
               completed_at := some now2 }),
      ?_, rfl, rfl, rfl⟩
    unfold update_job
    simp [runningMark, hid]

end ApifyRecommendationQueue

/-- C1: starting from an empty jobs map, a first `enqueue` creates job `J`;
a second `enqueue` with the identical owner and inputs while `J` is still
queued returns `J` itself (same job id) and leaves the map unchanged; while
`J` is running — the jobs map between the two locked blocks of
`_process_job` is, by definition of `process_job`, the point update
`update_job · f1 (runningMark ·)` — an identical `enqueue` again returns
the stored job (same job id as `J`) and creates no new job; after the
worker drives `J` to a terminal status (`failed` or `succeeded`, depending
on `outcome`), a further identical `enqueue` creates a new job under the
fresh uuid, different from `J`'s id; and likewise after `J` is driven to
the `cancelled` terminal status by `cancel_job`. -/
theorem c1_enqueue_dedup_lifecycle (cfg : ApifyRecommendationQueue.QueueConfig)
    (hcap : 0 < cfg.max_active_jobs_per_user) (uid : String)
    (p : ApifyRecommendationQueue.EnqueuePayload) (t1 t2 t3 t4 t5 t6 t7 t8 : ℤ)
    (f1 f2 f3 : String) (hf : f1 ≠ f2) (hf3 : f1 ≠ f3)
    (outcome : Except String (List String)) :
    ∃ J : ApifyRecommendationQueue.RecommendationJob,
      (ApifyRecommendationQueue.enqueue cfg t1 f1 uid p []).1 = .ok (J, true)
      ∧ J.job_id = f1 ∧ J.status = .queued
      ∧ (ApifyRecommendationQueue.enqueue cfg t2 f2 uid p
          (ApifyRecommendationQueue.enqueue cfg t1 f1 uid p []).2) =
        (.ok (J, false), (ApifyRecommendationQueue.enqueue cfg t1 f1 uid p []).2)
      ∧ (∃ Jr : ApifyRecommendationQueue.RecommendationJob,
          ApifyRecommendationQueue.findJob
            (ApifyRecommendationQueue.update_job
              (ApifyRecommendationQueue.enqueue cfg t2 f2 uid p
                (ApifyRecommendationQueue.enqueue cfg t1 f1 uid p []).2).2 f1
              (ApifyRecommendationQueue.runningMark t3)) f1 = some Jr
          ∧ Jr.status = .running ∧ Jr.job_id = J.job_id
          ∧ ApifyRecommendationQueue.enqueue cfg t4 f2 uid p
              (ApifyRecommendationQueue.update_job
                (ApifyRecommendationQueue.enqueue cfg t2 f2 uid p
                  (ApifyRecommendationQueue.enqueue cfg t1 f1 uid p []).2).2 f1
                (ApifyRecommendationQueue.runningMark t3)) =
            (.ok (Jr, false),
             ApifyRecommendationQueue.update_job
               (ApifyRecommendationQueue.enqueue cfg t2 f2 uid p
                 (ApifyRecommendationQueue.enqueue cfg t1 f1 uid p []).2).2 f1
               (ApifyRecommendationQueue.runningMark t3)))
      ∧ (∃ Jt, ApifyRecommendationQueue.findJob
          (ApifyRecommendationQueue.process_job f1 t3 outcome t5
            (ApifyRecommendationQueue.enqueue cfg t2 f2 uid p
              (ApifyRecommendationQueue.enqueue cfg t1 f1 uid p []).2).2) f1 = some Jt
          ∧ Jt.status.isTerminal = true)
      ∧ (∃ K : ApifyRecommendationQueue.RecommendationJob,
          (ApifyRecommendationQueue.enqueue cfg t6 f2 uid p
            (ApifyRecommendationQueue.process_job f1 t3 outcome t5
              (ApifyRecommendationQueue.enqueue cfg t2 f2 uid p
                (ApifyRecommendationQueue.enqueue cfg t1 f1 uid p []).2).2)).1 = .ok (K, true)
          ∧ K.job_id = f2 ∧ K.job_id ≠ J.job_id)
      ∧ ((ApifyRecommendationQueue.cancel_job t7 f1 uid
            (ApifyRecommendationQueue.enqueue cfg t2 f2 uid p
              (ApifyRecommendationQueue.enqueue cfg t1 f1 uid p []).2).2).1 = true
          ∧ (∃ Jc, ApifyRecommendationQueue.findJob
              (ApifyRecommendationQueue.cancel_job t7 f1 uid
                (ApifyRecommendationQueue.enqueue cfg t2 f2 uid p
                  (ApifyRecommendationQueue.enqueue cfg t1 f1 uid p []).2).2).2 f1 = some Jc
              ∧ Jc.status = .cancelled)
          ∧ (∃ K2 : ApifyRecommendationQueue.RecommendationJob,
              (ApifyRecommendationQueue.enqueue cfg t8 f3 uid p
                (ApifyRecommendationQueue.cancel_job t7 f1 uid
                  (ApifyRecommendationQueue.enqueue cfg t2 f2 uid p
                    (ApifyRecommendationQueue.enqueue cfg t1 f1 uid p []).2).2).2).1 =
                  .ok (K2, true)
              ∧ K2.job_id = f3 ∧ K2.job_id ≠ J.job_id)) := by
  have e1 := ApifyRecommendationQueue.enqueue_creates cfg t1 f1 uid p [] hcap
    (fun x hx => absurd hx (List.not_mem_nil x))
  rw [show ApifyRecommendationQueue.cleanup_expired cfg t1 [] = [] from rfl,
    List.nil_append] at e1
  set J : ApifyRecommendationQueue.RecommendationJob :=
    { job_id := f1, user_id := uid,
      payload_hash := ApifyRecommendationQueue.hash_payload uid p,
      resume_analysis := p.resume_analysis, use_apify := p.use_apify, top_n := p.top_n,
      location := AIRecommendationService.sanitize_location p.location "India",
      status := .queued, created_at := t1 } with hJdef
  have hid : J.job_id = f1 := rfl
  have hS1 : (ApifyRecommendationQueue.enqueue cfg t1 f1 uid p []).2 = [J] := by rw [e1]
  have e2 : ApifyRecommendationQueue.enqueue cfg t2 f2 uid p [J] = (.ok (J, false), [J]) :=
    ApifyRecommendationQueue.enqueue_dup_singleton cfg t2 f2 uid p J rfl rfl rfl
  have hS2 : (ApifyRecommendationQueue.enqueue cfg t2 f2 uid p
      (ApifyRecommendationQueue.enqueue cfg t1 f1 uid p []).2).2 = [J] := by
    rw [hS1, e2]
  have hupd : ApifyRecommendationQueue.update_job [J] f1
      (ApifyRecommendationQueue.runningMark t3) =
      [ApifyRecommendationQueue.runningMark t3 J] := by
    unfold ApifyRecommendationQueue.update_job
    simp [hid]
  have hidr : (ApifyRecommendationQueue.runningMark t3 J).job_id = f1 := rfl
  obtain ⟨Jt, e3, hJtTerm, hJtId, hJtUser⟩ :=
    ApifyRecommendationQueue.process_job_singleton_queued J f1 t3 outcome t5 rfl rfl
  have e4 := ApifyRecommendationQueue.enqueue_creates cfg t6 f2 uid p [Jt] hcap
    (fun x hx => by
      rw [List.mem_singleton.mp hx]
      rw [ApifyRecommendationQueue.isActive_eq_false_of_isTerminal hJtTerm]
      simp)
  have hcanc : ApifyRecommendationQueue.cancel_job t7 f1 uid [J] =
      (true, [ApifyRecommendationQueue.cancelMark t7 J]) := by
    have hfindJ : ApifyRecommendationQueue.findJob [J] f1 = some J := by
      unfold ApifyRecommendationQueue.findJob
      simp [List.find?, hid]
    unfold ApifyRecommendationQueue.cancel_job
    rw [hfindJ]
    dsimp only
    rw [if_neg (by simp), if_neg (by simp)]
    unfold ApifyRecommendationQueue.update_job
    simp [hid]
  have hidc : (ApifyRecommendationQueue.cancelMark t7 J).job_id = f1 := rfl
  have e5 := ApifyRecommendationQueue.enqueue_creates cfg t8 f3 uid p
    [ApifyRecommendationQueue.cancelMark t7 J] hcap
    (fun x hx => by
      rw [List.mem_singleton.mp hx]
      simp [ApifyRecommendationQueue.cancelMark, ApifyRecommendationQueue.JobStatus.isActive])
  refine ⟨J, ?_, rfl, rfl, ?_, ?_, ?_, ?_, ?_, ?_, ?_⟩
  · rw [e1]
  · rw [hS1]
    exact e2
  · rw [hS2, hupd]
    refine ⟨ApifyRecommendationQueue.runningMark t3 J, ?_, rfl, rfl,
      ApifyRecommendationQueue.enqueue_dup_singleton cfg t4 f2 uid p
        (ApifyRecommendationQueue.runningMark t3 J) rfl rfl rfl⟩
    unfold ApifyRecommendationQueue.findJob
    simp [List.find?, hidr]
  · rw [hS2, e3]
    refine ⟨Jt, ?_, hJtTerm⟩
    unfold ApifyRecommendationQueue.findJob
    simp [List.find?, hJtId]
  · rw [hS2, e3, e4]
    refine ⟨_, rfl, rfl, fun hcon => hf ?_⟩
    have : f2 = J.job_id := hcon
    exact this.symm
  · rw [hS2, hcanc]
  · rw [hS2, hcanc]
    refine ⟨ApifyRecommendationQueue.cancelMark t7 J, ?_, rfl⟩
    unfold ApifyRecommendationQueue.findJob
    simp [List.find?, hidc]
  · rw [hS2, hcanc, e5]
    refine ⟨_, rfl, rfl, fun hcon => hf3 ?_⟩
    have : f3 = J.job_id := hcon
    exact this.symm

/-- Witness for C1 at a concrete configuration, owner, payload and uuids. -/
theorem c1_enqueue_dedup_lifecycle_witness :
    0 < (2 : Nat) ∧ ("a" : String) ≠ "b" ∧ ("a" : String) ≠ "c" ∧
    ∃ J : ApifyRecommendationQueue.RecommendationJob,
      (ApifyRecommendationQueue.enqueue ⟨900, 2⟩ 1 "a" "u1" samplePayloadPython []).1 =
        .ok (J, true)
      ∧ J.job_id = "a" ∧ J.status = .queued
      ∧ (ApifyRecommendationQueue.enqueue ⟨900, 2⟩ 2 "b" "u1" samplePayloadPython
          (ApifyRecommendationQueue.enqueue ⟨900, 2⟩ 1 "a" "u1" samplePayloadPython []).2) =
        (.ok (J, false),
         (ApifyRecommendationQueue.enqueue ⟨900, 2⟩ 1 "a" "u1" samplePayloadPython []).2)
      ∧ (∃ Jr : ApifyRecommendationQueue.RecommendationJob,
          ApifyRecommendationQueue.findJob
            (ApifyRecommendationQueue.update_job
              (ApifyRecommendationQueue.enqueue ⟨900, 2⟩ 2 "b" "u1" samplePayloadPython
                (ApifyRecommendationQueue.enqueue ⟨900, 2⟩ 1 "a" "u1"
                  samplePayloadPython []).2).2 "a"
              (ApifyRecommendationQueue.runningMark 3)) "a" = some Jr
          ∧ Jr.status = .running ∧ Jr.job_id = J.job_id
          ∧ ApifyRecommendationQueue.enqueue ⟨900, 2⟩ 4 "b" "u1" samplePayloadPython
              (ApifyRecommendationQueue.update_job
                (ApifyRecommendationQueue.enqueue ⟨900, 2⟩ 2 "b" "u1" samplePayloadPython
                  (ApifyRecommendationQueue.enqueue ⟨900, 2⟩ 1 "a" "u1"
                    samplePayloadPython []).2).2 "a"
                (ApifyRecommendationQueue.runningMark 3)) =
            (.ok (Jr, false),
             ApifyRecommendationQueue.update_job
               (ApifyRecommendationQueue.enqueue ⟨900, 2⟩ 2 "b" "u1" samplePayloadPython
                 (ApifyRecommendationQueue.enqueue ⟨900, 2⟩ 1 "a" "u1"
                   samplePayloadPython []).2).2 "a"
               (ApifyRecommendationQueue.runningMark 3)))
      ∧ (∃ Jt, ApifyRecommendationQueue.findJob
          (ApifyRecommendationQueue.process_job "a" 3 (.ok ["r"]) 5
            (ApifyRecommendationQueue.enqueue ⟨900, 2⟩ 2 "b" "u1" samplePayloadPython
              (ApifyRecommendationQueue.enqueue ⟨900, 2⟩ 1 "a" "u1"
                samplePayloadPython []).2).2) "a" = some Jt
          ∧ Jt.status.isTerminal = true)
      ∧ (∃ K : ApifyRecommendationQueue.RecommendationJob,
          (ApifyRecommendationQueue.enqueue ⟨900, 2⟩ 6 "b" "u1" samplePayloadPython
            (ApifyRecommendationQueue.process_job "a" 3 (.ok ["r"]) 5
              (ApifyRecommendationQueue.enqueue ⟨900, 2⟩ 2 "b" "u1" samplePayloadPython
                (ApifyRecommendationQueue.enqueue ⟨900, 2⟩ 1 "a" "u1"
                  samplePayloadPython []).2).2)).1 = .ok (K, true)
          ∧ K.job_id = "b" ∧ K.job_id ≠ J.job_id)
      ∧ ((ApifyRecommendationQueue.cancel_job 7 "a" "u1"
            (ApifyRecommendationQueue.enqueue ⟨900, 2⟩ 2 "b" "u1" samplePayloadPython
              (ApifyRecommendationQueue.enqueue ⟨900, 2⟩ 1 "a" "u1"
                samplePayloadPython []).2).2).1 = true
          ∧ (∃ Jc, ApifyRecommendationQueue.findJob
              (ApifyRecommendationQueue.cancel_job 7 "a" "u1"
                (ApifyRecommendationQueue.enqueue ⟨900, 2⟩ 2 "b" "u1" samplePayloadPython
                  (ApifyRecommendationQueue.enqueue ⟨900, 2⟩ 1 "a" "u1"
                    samplePayloadPython []).2).2).2 "a" = some Jc
              ∧ Jc.status = .cancelled)
          ∧ (∃ K2 : ApifyRecommendationQueue.RecommendationJob,
              (ApifyRecommendationQueue.enqueue ⟨900, 2⟩ 8 "c" "u1" samplePayloadPython
                (ApifyRecommendationQueue.cancel_job 7 "a" "u1"
                  (ApifyRecommendationQueue.enqueue ⟨900, 2⟩ 2 "b" "u1" samplePayloadPython
                    (ApifyRecommendationQueue.enqueue ⟨900, 2⟩ 1 "a" "u1"
                      samplePayloadPython []).2).2).2).1 =
                  .ok (K2, true)
              ∧ K2.job_id = "c" ∧ K2.job_id ≠ J.job_id)) :=
  ⟨by decide, by decide, by decide,
   c1_enqueue_dedup_lifecycle ⟨900, 2⟩ (by decide) "u1" samplePayloadPython
     1 2 3 4 5 6 7 8 "a" "b" "c" (by decide) (by decide) (.ok ["r"])⟩
